import Mathlib

/-!
Verification of the seam-carving-visualizer viewport / animation engine.

This file gives a shallow embedding of the engine's core source files:

- `src/lib/utils.js` (`map`, `clamp`),
- `src/lib/animator/easings.js` (`easeOutCubic`, `easeInOutCubic`),
- `src/lib/animator/animator.js` (the generic scalar `Animator`),
- `src/lib/animator/color-animator.js` (`ColorAnimator`, hex marshalling),
- `src/lib/canvas-control/canvas-control.js` (the `CanvasControl`
  viewport controller, in its final Animator-based version).

JavaScript numbers are modelled as elements of an arbitrary
`LinearOrderedField` (instantiated at `ℚ` for executable witnesses and at
`ℝ` where `Math.pow` with non-integral exponents is involved, using
`Real.rpow`).  Wall-clock time (`performance.now()`) is passed explicitly
as a `now` argument to every operation that reads it.  JavaScript
exceptions are modelled with `Option`, `none` standing for a thrown error.
-/

namespace SeamCarve

variable {α : Type} [LinearOrderedField α]

/-- Embedding of `map` from `src/lib/utils.js`: maps `value` from the range
`[a1, b1]` to the range `[a2, b2]` via `a2 + slope * (value - a1)` with
`slope = (b2 - a2) / (b1 - a1)`. -/
def jsmap (value a1 b1 a2 b2 : α) : α :=
  a2 + (b2 - a2) / (b1 - a1) * (value - a1)

/-- Embedding of `clamp` from `src/lib/utils.js`: returns `max` when
`value >= max`, `min` when `value <= min`, and `value` otherwise. -/
def clamp (value mn mx : α) : α :=
  if mx ≤ value then mx else if value ≤ mn then mn else value

/-- Embedding of `easeOutCubic` from `src/lib/animator/easings.js`:
`1 - Math.pow(1 - x, 3)`. -/
def easeOutCubic (x : α) : α :=
  1 - (1 - x) ^ 3

/-- Embedding of `easeInOutCubic` from `src/lib/animator/easings.js`:
`x < 0.5 ? 4 * x * x * x : 1 - Math.pow(-2 * x + 2, 3) / 2`. -/
def easeInOutCubic (x : α) : α :=
  if x < 1 / 2 then 4 * x * x * x else 1 - (-2 * x + 2) ^ 3 / 2

/-- State of the `Animator` class from `src/lib/animator/animator.js`:
fields `start`, `current`, `target`, the easing function `ease`, the epoch
`timestamp` of the running transition, and the `duration` in milliseconds. -/
structure Animator (α : Type) where
  start : α
  current : α
  target : α
  ease : α → α
  timestamp : α
  duration : α

namespace Animator

/-- Embedding of the `Animator` constructor: `start`, `current` and
`target` are all set to the initial value; the easing function and the
duration come from the options; the `timestamp` field initialiser runs
`performance.now()`, passed here as `now`. -/
def create (initial : α) (ease : α → α) (duration : α) (now : α) : Animator α :=
  ⟨initial, initial, initial, ease, now, duration⟩

/-- Embedding of `Animator.step`: computes
`absoluteProgress = (now - timestamp) / duration`; when it is `>= 1` the
current value snaps to the target, otherwise
`current = map(ease(absoluteProgress), 0, 1, start, target)`. -/
def step (a : Animator α) (now : α) : Animator α :=
  if 1 ≤ (now - a.timestamp) / a.duration then
    { a with current := a.target }
  else
    { a with current := jsmap (a.ease ((now - a.timestamp) / a.duration)) 0 1 a.start a.target }

/-- Embedding of `Animator.end`: sets `start` and `current` to `target`. -/
def «end» (a : Animator α) : Animator α :=
  { a with start := a.target, current := a.target }

/-- Embedding of `Animator.hasEnded`: `current == target`. -/
def hasEnded (a : Animator α) : Prop :=
  a.current = a.target

instance (a : Animator α) : Decidable a.hasEnded :=
  inferInstanceAs (Decidable (a.current = a.target))

/-- Embedding of `Animator.getTarget`. -/
def getTarget (a : Animator α) : α :=
  a.target

/-- Embedding of `Animator.setTarget`: unconditionally sets
`start = current`, `target = value` and `timestamp = performance.now()`
(the source contains no equality guard). -/
def setTarget (a : Animator α) (value : α) (now : α) : Animator α :=
  { a with start := a.current, target := value, timestamp := now }

/-- Embedding of `Animator.getValue`. -/
def getValue (a : Animator α) : α :=
  a.current

/-- Embedding of `Animator.setValue`: sets `start`, `current` and `target`
to the given value. -/
def setValue (a : Animator α) (value : α) : Animator α :=
  { a with start := value, current := value, target := value }

@[simp] theorem step_start (a : Animator α) (now : α) : (a.step now).start = a.start := by
  rw [step]; split <;> rfl

@[simp] theorem step_target (a : Animator α) (now : α) : (a.step now).target = a.target := by
  rw [step]; split <;> rfl

@[simp] theorem step_ease (a : Animator α) (now : α) : (a.step now).ease = a.ease := by
  rw [step]; split <;> rfl

@[simp] theorem step_timestamp (a : Animator α) (now : α) :
    (a.step now).timestamp = a.timestamp := by
  rw [step]; split <;> rfl

@[simp] theorem step_duration (a : Animator α) (now : α) :
    (a.step now).duration = a.duration := by
  rw [step]; split <;> rfl

theorem step_current_of_ge (a : Animator α) (now : α)
    (h : 1 ≤ (now - a.timestamp) / a.duration) : (a.step now).current = a.target := by
  rw [step, if_pos h]

theorem step_current_of_lt (a : Animator α) (now : α)
    (h : (now - a.timestamp) / a.duration < 1) :
    (a.step now).current = a.start +
      a.ease ((now - a.timestamp) / a.duration) * (a.target - a.start) := by
  rw [step, if_neg (not_le.mpr h), jsmap]; ring_nf

end Animator

/-- Property of every easing function installable through
`Animator.setEasing` (`easeOutCubic`, `easeInOutCubic`; `easeOutExpo` is
imported by the source but absent from `easings.js`): strictly monotone,
mapping 0 to 0 and 1 to 1. -/
def GoodEase (f : α → α) : Prop :=
  StrictMono f ∧ f 0 = 0 ∧ f 1 = 1

/-- States of an `Animator` object reachable through the class API
(construction with a positive duration and an installable easing function,
then any interleaving of `step`, `setTarget`, `setValue` and `end` at
monotonically non-decreasing `performance.now()` readings).  The second
argument is the time of the latest event. -/
inductive Reachable : Animator α → α → Prop
  | create (v : α) (f : α → α) (d t : α) (hd : 0 < d) (hf : GoodEase f) :
      Reachable (Animator.create v f d t) t
  | step (a : Animator α) (t t' : α) (h : Reachable a t) (ht : t ≤ t') :
      Reachable (a.step t') t'
  | setTarget (a : Animator α) (v : α) (t t' : α) (h : Reachable a t) (ht : t ≤ t') :
      Reachable (a.setTarget v t') t'
  | setValue (a : Animator α) (v : α) (t : α) (h : Reachable a t) :
      Reachable (a.setValue v) t
  | «end» (a : Animator α) (t : α) (h : Reachable a t) :
      Reachable a.end t

theorem easeOutCubic_goodEase : GoodEase (easeOutCubic (α := α)) := by
  refine ⟨fun x y hxy => ?_, by simp [easeOutCubic], by simp [easeOutCubic]⟩
  simp only [easeOutCubic]
  have h3 : (1 - y) ^ 3 < (1 - x) ^ 3 :=
    (Odd.strictMono_pow (by decide)) (by linarith)
  linarith

/-- Structural invariant of reachable animator states: the easing function
is installable, the duration is positive, the timestamp is not in the
future, and once the animation has ended either the whole transition is
degenerate (`start = target`) or the transition window has already fully
elapsed. -/
theorem reachable_invariant {a : Animator α} {t : α} (h : Reachable a t) :
    GoodEase a.ease ∧ 0 < a.duration ∧ a.timestamp ≤ t ∧
      (a.current = a.target → a.start = a.target ∨ a.timestamp + a.duration ≤ t) := by
  induction h with
  | create v f d t hd hf =>
      exact ⟨hf, hd, le_refl t, fun _ => Or.inl rfl⟩
  | step a t t' h ht ih =>
      obtain ⟨hf, hd, hts, hinv⟩ := ih
      refine ⟨by simpa using hf, by simpa using hd, by simpa using le_trans hts ht, ?_⟩
      intro hcur
      simp only [Animator.step_start, Animator.step_target, Animator.step_timestamp,
        Animator.step_duration]
      by_cases hp : (1 : α) ≤ (t' - a.timestamp) / a.duration
      · right
        have := (one_le_div hd).mp hp
        linarith
      · rw [Animator.step_current_of_lt a t' (lt_of_not_le hp),
          Animator.step_target] at hcur
        by_cases hst : a.start = a.target
        · exact Or.inl hst
        · exfalso
          have hne : a.target - a.start ≠ 0 := sub_ne_zero.mpr (Ne.symm hst)
          have heq : a.ease ((t' - a.timestamp) / a.duration) = 1 := by
            have h1 : a.ease ((t' - a.timestamp) / a.duration) * (a.target - a.start) =
                1 * (a.target - a.start) := by linarith
            exact mul_right_cancel₀ hne h1
          have hlt : (t' - a.timestamp) / a.duration < 1 := lt_of_not_le hp
          have := hf.1 hlt
          rw [heq, hf.2.2] at this
          exact lt_irrefl _ this
  | setTarget a v t t' h ht ih =>
      obtain ⟨hf, hd, hts, _⟩ := ih
      exact ⟨hf, hd, le_refl t', fun hcur => Or.inl hcur⟩
  | setValue a v t h ih =>
      obtain ⟨hf, hd, hts, _⟩ := ih
      exact ⟨hf, hd, hts, fun _ => Or.inl rfl⟩
  | «end» a t h ih =>
      obtain ⟨hf, hd, hts, _⟩ := ih
      exact ⟨hf, hd, hts, fun _ => Or.inl rfl⟩

/-- Helper for reasoning about `Animator.step`: the effective interpolation
coefficient applied to `target - start`, clamped to 1 once the absolute
progress reaches 1. -/
def easedFactor (a : Animator α) (now : α) : α :=
  if 1 ≤ (now - a.timestamp) / a.duration then 1
  else a.ease ((now - a.timestamp) / a.duration)

theorem step_current_eq_easedFactor (a : Animator α) (now : α) :
    (a.step now).current = a.start + easedFactor a now * (a.target - a.start) := by
  rw [easedFactor]
  by_cases hp : 1 ≤ (now - a.timestamp) / a.duration
  · rw [if_pos hp, Animator.step_current_of_ge a now hp]; ring
  · rw [if_neg hp, Animator.step_current_of_lt a now (lt_of_not_le hp)]

theorem easedFactor_nonneg (a : Animator α) (now : α) (hf : GoodEase a.ease)
    (hd : 0 < a.duration) (hts : a.timestamp ≤ now) : 0 ≤ easedFactor a now := by
  rw [easedFactor]
  by_cases hp : 1 ≤ (now - a.timestamp) / a.duration
  · rw [if_pos hp]; norm_num
  · rw [if_neg hp]
    have h0 : (0 : α) ≤ (now - a.timestamp) / a.duration :=
      div_nonneg (by linarith) (le_of_lt hd)
    calc (0 : α) = a.ease 0 := (hf.2.1).symm
    _ ≤ a.ease ((now - a.timestamp) / a.duration) := hf.1.monotone h0

theorem easedFactor_le_one (a : Animator α) (now : α) (hf : GoodEase a.ease) :
    easedFactor a now ≤ 1 := by
  rw [easedFactor]
  by_cases hp : 1 ≤ (now - a.timestamp) / a.duration
  · rw [if_pos hp]
  · rw [if_neg hp]
    have := hf.1 (lt_of_not_le hp)
    rw [hf.2.2] at this
    exact le_of_lt this

theorem easedFactor_mono (a : Animator α) (t1 t2 : α) (hf : GoodEase a.ease)
    (hd : 0 < a.duration) (h12 : t1 ≤ t2) : easedFactor a t1 ≤ easedFactor a t2 := by
  have hpmono : (t1 - a.timestamp) / a.duration ≤ (t2 - a.timestamp) / a.duration :=
    (div_le_div_right hd).mpr (by linarith)
  rw [easedFactor, easedFactor]
  by_cases hp1 : 1 ≤ (t1 - a.timestamp) / a.duration
  · rw [if_pos hp1, if_pos (le_trans hp1 hpmono)]
  · rw [if_neg hp1]
    by_cases hp2 : 1 ≤ (t2 - a.timestamp) / a.duration
    · rw [if_pos hp2]
      have := hf.1 (lt_of_not_le hp1)
      rw [hf.2.2] at this
      exact le_of_lt this
    · rw [if_neg hp2]
      exact hf.1.monotone hpmono

theorem easedFactor_eq_one_iff (a : Animator α) (now : α) (hf : GoodEase a.ease) :
    easedFactor a now = 1 ↔ 1 ≤ (now - a.timestamp) / a.duration := by
  rw [easedFactor]
  by_cases hp : 1 ≤ (now - a.timestamp) / a.duration
  · rw [if_pos hp]; exact ⟨fun _ => hp, fun _ => rfl⟩
  · rw [if_neg hp]
    constructor
    · intro h1
      exfalso
      have := hf.1 (lt_of_not_le hp)
      rw [hf.2.2, h1] at this
      exact lt_irrefl _ this
    · intro h; exact absurd h hp

/-- C3 (confirmed): for every reachable `Animator` state (duration is
positive by construction) and any `now` not before the latest event:
`step` leaves the current value unchanged when `hasEnded()` holds; when
`progress = (now - timestamp) / duration` is at least 1 it snaps the
current value to the target; when `progress < 1` it sets the current value
to `start + ease(progress) * (target - start)`; since the installable
easing functions are strictly monotone with `f(0)=0` and `f(1)=1`, the
current value produced by sampling `step` at increasing timestamps moves
monotonically from start toward target, and it equals the target exactly
once the elapsed time reaches the duration. -/
theorem animator_step_progress_semantics (a : Animator α) (t : α) (hr : Reachable a t) :
    (∀ now, t ≤ now → a.hasEnded → (a.step now).current = a.current) ∧
    (∀ now, 1 ≤ (now - a.timestamp) / a.duration → (a.step now).current = a.target) ∧
    (∀ now, (now - a.timestamp) / a.duration < 1 →
      (a.step now).current =
        a.start + a.ease ((now - a.timestamp) / a.duration) * (a.target - a.start)) ∧
    (∀ t1 t2, a.timestamp ≤ t1 → t1 ≤ t2 → a.start ≤ a.target →
      a.start ≤ (a.step t1).current ∧ (a.step t1).current ≤ (a.step t2).current ∧
        (a.step t2).current ≤ a.target) ∧
    (∀ t1 t2, a.timestamp ≤ t1 → t1 ≤ t2 → a.target ≤ a.start →
      (a.step t1).current ≤ a.start ∧ (a.step t2).current ≤ (a.step t1).current ∧
        a.target ≤ (a.step t2).current) ∧
    (∀ now, a.timestamp ≤ now → a.start ≠ a.target →
      ((a.step now).current = a.target ↔ a.timestamp + a.duration ≤ now)) := by
  obtain ⟨hf, hd, hts, hinv⟩ := reachable_invariant hr
  refine ⟨?_, ?_, ?_, ?_, ?_, ?_⟩
  · intro now hnow hend
    have hend' : a.current = a.target := hend
    rcases hinv hend' with hst | hel
    · rw [step_current_eq_easedFactor, hst, hend']
      ring
    · have hp : 1 ≤ (now - a.timestamp) / a.duration :=
        (one_le_div hd).mpr (by linarith)
      rw [Animator.step_current_of_ge a now hp, hend']
  · exact fun now hp => Animator.step_current_of_ge a now hp
  · exact fun now hp => Animator.step_current_of_lt a now hp
  · intro t1 t2 h1 h12 hst
    have e1 := step_current_eq_easedFactor a t1
    have e2 := step_current_eq_easedFactor a t2
    have g10 := easedFactor_nonneg a t1 hf hd h1
    have g20 := easedFactor_nonneg a t2 hf hd (le_trans h1 h12)
    have g11 := easedFactor_le_one a t1 hf
    have g21 := easedFactor_le_one a t2 hf
    have gm := easedFactor_mono a t1 t2 hf hd h12
    refine ⟨?_, ?_, ?_⟩
    · rw [e1]; nlinarith
    · rw [e1, e2]; nlinarith
    · rw [e2]; nlinarith
  · intro t1 t2 h1 h12 hst
    have e1 := step_current_eq_easedFactor a t1
    have e2 := step_current_eq_easedFactor a t2
    have g10 := easedFactor_nonneg a t1 hf hd h1
    have g20 := easedFactor_nonneg a t2 hf hd (le_trans h1 h12)
    have g11 := easedFactor_le_one a t1 hf
    have g21 := easedFactor_le_one a t2 hf
    have gm := easedFactor_mono a t1 t2 hf hd h12
    refine ⟨?_, ?_, ?_⟩
    · rw [e1]; nlinarith
    · rw [e1, e2]; nlinarith
    · rw [e2]; nlinarith
  · intro now hnow hst
    rw [step_current_eq_easedFactor]
    constructor
    · intro hcur
      have hΔ : a.target - a.start ≠ 0 := sub_ne_zero.mpr (Ne.symm hst)
      have h1 : easedFactor a now * (a.target - a.start) = 1 * (a.target - a.start) := by
        linarith
      have := mul_right_cancel₀ hΔ h1
      have hp := (easedFactor_eq_one_iff a now hf).mp this
      have := (one_le_div hd).mp hp
      linarith
    · intro hel
      have hp : 1 ≤ (now - a.timestamp) / a.duration :=
        (one_le_div hd).mpr (by linarith)
      rw [(easedFactor_eq_one_iff a now hf).mpr hp]; ring

/-- Witness animator state for the Animator claims: constructed at time 0
with initial value 0, easing `easeInOutCubic` and duration 1000, retargeted
to 10 at time 0, then stepped at time 500, which puts the current value at
5 (easeInOutCubic(1/2) = 1/2). -/
def midFlightAnim : Animator ℚ :=
  ((Animator.create 0 easeInOutCubic 1000 0).setTarget 10 0).step 500

theorem easeInOutCubic_goodEase : GoodEase (easeInOutCubic (α := α)) := by
  refine ⟨?_, by norm_num [easeInOutCubic], by norm_num [easeInOutCubic]⟩
  intro x y hxy
  rw [easeInOutCubic, easeInOutCubic]
  by_cases hx : x < 1 / 2
  · by_cases hy : y < 1 / 2
    · rw [if_pos hx, if_pos hy]
      have h3 : x ^ 3 < y ^ 3 := (Odd.strictMono_pow (by decide)) hxy
      nlinarith [h3]
    · rw [if_pos hx, if_neg hy]
      have hy2 : (1 : α) / 2 ≤ y := le_of_not_lt hy
      have hx3 : x ^ 3 < (1 / 2 : α) ^ 3 := (Odd.strictMono_pow (by decide)) hx
      have hu : (-2 * y + 2 : α) ≤ 1 := by linarith
      have hy3 : (-2 * y + 2 : α) ^ 3 ≤ 1 ^ 3 := (Odd.strictMono_pow (by decide)).monotone hu
      nlinarith [hx3, hy3]
  · have hy : ¬y < 1 / 2 := fun h => absurd (lt_trans hxy h) hx
    rw [if_neg hx, if_neg hy]
    have h3 : (-2 * y + 2 : α) ^ 3 < (-2 * x + 2) ^ 3 :=
      (Odd.strictMono_pow (by decide)) (by linarith)
    linarith

theorem midFlightAnim_eq : midFlightAnim = ⟨0, 5, 10, easeInOutCubic, 0, 1000⟩ := by
  rw [midFlightAnim, Animator.create, Animator.setTarget, Animator.step]
  norm_num [easeInOutCubic, jsmap]

theorem midFlightAnim_reachable : Reachable midFlightAnim 500 := by
  apply Reachable.step _ 0 500 _ (by norm_num)
  apply Reachable.setTarget _ 10 0 0 _ (le_refl 0)
  exact Reachable.create 0 easeInOutCubic 1000 0 (by norm_num) easeInOutCubic_goodEase

/-- Witness for C3: the theorem applied to the concrete reachable
mid-flight animator state above. -/
theorem animator_step_progress_semantics_witness :
    Reachable midFlightAnim 500 ∧
    ((∀ now, (500 : ℚ) ≤ now → midFlightAnim.hasEnded →
        (midFlightAnim.step now).current = midFlightAnim.current) ∧
    (∀ now, 1 ≤ (now - midFlightAnim.timestamp) / midFlightAnim.duration →
        (midFlightAnim.step now).current = midFlightAnim.target) ∧
    (∀ now, (now - midFlightAnim.timestamp) / midFlightAnim.duration < 1 →
      (midFlightAnim.step now).current =
        midFlightAnim.start + midFlightAnim.ease
          ((now - midFlightAnim.timestamp) / midFlightAnim.duration) *
          (midFlightAnim.target - midFlightAnim.start)) ∧
    (∀ t1 t2, midFlightAnim.timestamp ≤ t1 → t1 ≤ t2 →
        midFlightAnim.start ≤ midFlightAnim.target →
      midFlightAnim.start ≤ (midFlightAnim.step t1).current ∧
        (midFlightAnim.step t1).current ≤ (midFlightAnim.step t2).current ∧
        (midFlightAnim.step t2).current ≤ midFlightAnim.target) ∧
    (∀ t1 t2, midFlightAnim.timestamp ≤ t1 → t1 ≤ t2 →
        midFlightAnim.target ≤ midFlightAnim.start →
      (midFlightAnim.step t1).current ≤ midFlightAnim.start ∧
        (midFlightAnim.step t2).current ≤ (midFlightAnim.step t1).current ∧
        midFlightAnim.target ≤ (midFlightAnim.step t2).current) ∧
    (∀ now, midFlightAnim.timestamp ≤ now → midFlightAnim.start ≠ midFlightAnim.target →
      ((midFlightAnim.step now).current = midFlightAnim.target ↔
        midFlightAnim.timestamp + midFlightAnim.duration ≤ now))) :=
  ⟨midFlightAnim_reachable,
    animator_step_progress_semantics midFlightAnim 500 midFlightAnim_reachable⟩

/-- C1 counterexample: in the source, `Animator.setTarget` has no
same-target guard.  On the concrete mid-flight state (start 0, current 5,
target 10, timestamp 0), calling `setTarget(10)` — the value already equal
to the target — at time 50 resets the timestamp from 0 to 50 and re-bases
the start value from 0 to 5, so it is not a no-op and an in-flight
animation is restarted. -/
theorem setTarget_same_value_not_noop :
    midFlightAnim.getTarget = 10 ∧
    midFlightAnim.timestamp = 0 ∧
    midFlightAnim.start = 0 ∧
    (midFlightAnim.setTarget 10 50).timestamp = 50 ∧
    (midFlightAnim.setTarget 10 50).start = 5 := by
  refine ⟨?_, ?_, ?_, ?_, ?_⟩ <;> rw [midFlightAnim_eq] <;> rfl

/-- C1 (amended): calling `setTarget(value)` when `value` equals the
current target is not a no-op: it leaves `currentValue` and `targetValue`
unchanged (so the externally visible value is unaffected), but it re-bases
`startValue` to `currentValue` and resets `startTime` to the current time,
restarting the easing window of any in-flight animation. -/
theorem setTarget_same_value_effect (a : Animator α) (v now : α) (h : a.getTarget = v) :
    (a.setTarget v now).current = a.current ∧
    (a.setTarget v now).target = a.target ∧
    (a.setTarget v now).start = a.current ∧
    (a.setTarget v now).timestamp = now := by
  refine ⟨rfl, ?_, rfl, rfl⟩
  rw [Animator.getTarget] at h
  rw [Animator.setTarget, h]

/-- Witness for the amended C1 at the concrete mid-flight state. -/
theorem setTarget_same_value_effect_witness :
    midFlightAnim.getTarget = 10 ∧
    ((midFlightAnim.setTarget 10 50).current = midFlightAnim.current ∧
    (midFlightAnim.setTarget 10 50).target = midFlightAnim.target ∧
    (midFlightAnim.setTarget 10 50).start = midFlightAnim.current ∧
    (midFlightAnim.setTarget 10 50).timestamp = 50) :=
  ⟨by rw [midFlightAnim_eq]; rfl, setTarget_same_value_effect midFlightAnim 10 50
    (by rw [midFlightAnim_eq]; rfl)⟩

/-- C4 (confirmed): `setTarget` re-bases `startValue` to `currentValue`
and does not modify `currentValue`, so sampling `getValue()` immediately
after a retarget returns exactly the value from just before it — the
animated value is continuous across retargeting, for every animator state
(in particular mid-flight ones) and every new target. -/
theorem setTarget_getValue_continuous (a : Animator α) (b now : α) :
    (a.setTarget b now).getValue = a.getValue ∧
    (a.setTarget b now).start = a.getValue :=
  ⟨rfl, rfl⟩

/-! ColorAnimator (`src/lib/animator/color-animator.js`).  Color strings
are modelled as lists of characters; a JavaScript exception is modelled by
an `Option`-valued operation returning `none`.  Since `convertHexToRGB` is
invoked before any channel animator is touched, a failing `setTarget` or
`setValue` produces `none` without any partially updated state, which is
the embedding of the source's throw-before-mutate atomicity. -/

/-- Value table for one hexadecimal digit character, as consumed by
`parseInt(−, 16)`: the `0-9` range, then both cases of `a-f`. -/
def hexDigitTable : List (Char × ℕ) :=
  [('0', 0), ('1', 1), ('2', 2), ('3', 3), ('4', 4),
   ('5', 5), ('6', 6), ('7', 7), ('8', 8), ('9', 9),
   ('a', 10), ('A', 10), ('b', 11), ('B', 11), ('c', 12), ('C', 12),
   ('d', 13), ('D', 13), ('e', 14), ('E', 14), ('f', 15), ('F', 15)]

/-- Character class `[0-9A-Fa-f]` of the `HEX_PATTERN` regular expression
in `src/lib/animator/color-animator.js`: the characters with a hex digit
value. -/
def hexDigitChars : List Char :=
  hexDigitTable.map Prod.fst

/-- Numeric value of one hexadecimal digit character, as consumed by
`parseInt(−, 16)`; `none` for characters outside `[0-9A-Fa-f]`. -/
def hexDigitVal? (c : Char) : Option ℕ :=
  (hexDigitTable.find? (fun p => p.1 == c)).map Prod.snd

/-- Value of a two-hex-digit group, as computed by
`parseInt(match.groups.r, 16)` on a two-character group. -/
def hexPairVal? (c1 c2 : Char) : Option ℕ :=
  match hexDigitVal? c1, hexDigitVal? c2 with
  | some v1, some v2 => some (16 * v1 + v2)
  | _, _ => none

/-- Consumption of the optional leading `#` of `HEX_PATTERN` (`^#?`). -/
def stripHash (l : List Char) : List Char :=
  match l with
  | '#' :: rest => rest
  | _ => l

/-- Embedding of `ColorAnimator.convertHexToRGB`: the string must match
`^#?([0-9A-Fa-f]{2})([0-9A-Fa-f]{2})([0-9A-Fa-f]{2})$`; each captured
group is parsed with `parseInt(−, 16)`; a non-matching string throws
(`none`). -/
def convertHexToRGB (l : List Char) : Option (ℚ × ℚ × ℚ) :=
  match stripHash l with
  | [a, b, c, d, e, f] =>
    match hexPairVal? a b, hexPairVal? c d, hexPairVal? e f with
    | some r, some g, some bl => some ((r : ℚ), (g : ℚ), (bl : ℚ))
    | _, _, _ => none
  | _ => none

/-- Decimal digit characters. -/
def decimalChars : List Char :=
  ['0', '1', '2', '3', '4', '5', '6', '7', '8', '9']

/-- Lowercase hexadecimal digit characters, in value order, as produced by
`Number.prototype.toString(16)`. -/
def lowerHexChars : List Char :=
  decimalChars ++ ['a', 'b', 'c', 'd', 'e', 'f']

/-- Digit character for a value below 16, lowercase as produced by
`Number.prototype.toString(16)`. -/
def hexChar (n : ℕ) : Char :=
  lowerHexChars.getD n '0'

/-- Base-16 rendering of a natural number, most significant digit first,
as produced by `Number.prototype.toString(16)` on a non-negative integer.
The first argument is recursion fuel; `n + 1` units always suffice because
the value shrinks by a factor of 16 at each step. -/
def natToHexAux : ℕ → ℕ → List Char
  | 0, _ => []
  | fuel + 1, n =>
    if n < 16 then [hexChar n] else natToHexAux fuel (n / 16) ++ [hexChar (n % 16)]

/-- Base-16 rendering of a natural number (`toString(16)`). -/
def natToHex (n : ℕ) : List Char :=
  natToHexAux (n + 1) n

/-- Base-16 rendering of an integer, with a leading minus sign for
negative values, matching `Number.prototype.toString(16)`. -/
def intToHex (n : ℤ) : List Char :=
  if n < 0 then '-' :: natToHex n.natAbs else natToHex n.toNat

/-- Embedding of `String.prototype.padStart(2, "0")`. -/
def padStart2 (l : List Char) : List Char :=
  List.replicate (2 - l.length) '0' ++ l

/-- Embedding of `ColorAnimator.convertRGBToHex`:
`"#" + r.toString(16).padStart(2, "0") + …` for the three channels. -/
def convertRGBToHex (r g b : ℤ) : List Char :=
  '#' :: (padStart2 (intToHex r) ++ padStart2 (intToHex g) ++ padStart2 (intToHex b))

/-- Embedding of `Math.round`: rounds half-integers toward positive
infinity, i.e. `⌊x + 1/2⌋`. -/
def jsRound (q : ℚ) : ℤ :=
  ⌊q + 1 / 2⌋

/-- State of the `ColorAnimator` class: three channel `Animator`s over the
rational embedding of JavaScript numbers. -/
structure ColorAnimator where
  r : Animator ℚ
  g : Animator ℚ
  b : Animator ℚ

namespace ColorAnimator

/-- Embedding of the `ColorAnimator` constructor: converts the initial
color (throwing on malformed input, modelled by `none`) and creates the
three channel animators with the shared options (easing function and
duration, resolved as in `Animator`). -/
def create (hex : List Char) (ease : ℚ → ℚ) (duration now : ℚ) : Option ColorAnimator :=
  (convertHexToRGB hex).map fun color =>
    ⟨Animator.create color.1 ease duration now,
     Animator.create color.2.1 ease duration now,
     Animator.create color.2.2 ease duration now⟩

/-- Embedding of `ColorAnimator.getValue`: rounds each channel's current
value with `Math.round` and re-encodes the triple as a hex string. -/
def getValue (c : ColorAnimator) : List Char :=
  convertRGBToHex (jsRound c.r.getValue) (jsRound c.g.getValue) (jsRound c.b.getValue)

/-- Embedding of `ColorAnimator.setTarget`: converts the hex string first
(throwing on malformed input before any channel is touched), then
retargets the three channel animators. -/
def setTarget (c : ColorAnimator) (hex : List Char) (now : ℚ) : Option ColorAnimator :=
  (convertHexToRGB hex).map fun color =>
    ⟨c.r.setTarget color.1 now, c.g.setTarget color.2.1 now, c.b.setTarget color.2.2 now⟩

/-- Embedding of `ColorAnimator.setValue`: converts the hex string first
(throwing on malformed input before any channel is touched), then sets the
three channel animators' values. -/
def setValue (c : ColorAnimator) (hex : List Char) : Option ColorAnimator :=
  (convertHexToRGB hex).map fun color =>
    ⟨c.r.setValue color.1, c.g.setValue color.2.1, c.b.setValue color.2.2⟩

end ColorAnimator

/-- Specification-side reading of a string accepted by `HEX_PATTERN`:
exactly six hexadecimal digits with one optional leading `#`. -/
def ValidHexString (l : List Char) : Prop :=
  ∃ core, core.length = 6 ∧ (∀ c ∈ core, c ∈ hexDigitChars) ∧
    (l = core ∨ l = '#' :: core)

theorem hexDigitVal_isSome_iff (c : Char) :
    (hexDigitVal? c).isSome ↔ c ∈ hexDigitChars := by
  have hmap : (hexDigitVal? c).isSome =
      (hexDigitTable.find? (fun p => p.1 == c)).isSome := by
    rw [hexDigitVal?]
    cases hexDigitTable.find? (fun p => p.1 == c) <;> rfl
  rw [hmap, List.find?_isSome, hexDigitChars]
  constructor
  · rintro ⟨p, hp, hbeq⟩
    exact List.mem_map.mpr ⟨p, hp, beq_iff_eq.mp hbeq⟩
  · intro hc
    obtain ⟨p, hp, hfst⟩ := List.mem_map.mp hc
    exact ⟨p, hp, beq_iff_eq.mpr hfst⟩

theorem hexPairVal_isSome_iff (c1 c2 : Char) :
    (hexPairVal? c1 c2).isSome ↔ c1 ∈ hexDigitChars ∧ c2 ∈ hexDigitChars := by
  rw [← hexDigitVal_isSome_iff, ← hexDigitVal_isSome_iff]
  cases h1 : hexDigitVal? c1 <;> cases h2 : hexDigitVal? c2 <;>
    simp [hexPairVal?, h1, h2]

theorem stripHash_cons_of_ne (c : Char) (tl : List Char) (h : c ≠ '#') :
    stripHash (c :: tl) = c :: tl := by
  rw [stripHash.eq_def]
  split
  · next heq => rw [List.cons.injEq] at heq; exact absurd heq.1 h
  · rfl

theorem convertHexToRGB_isSome_iff (l : List Char) :
    (convertHexToRGB l).isSome ↔
      ∃ c1 c2 c3 c4 c5 c6, stripHash l = [c1, c2, c3, c4, c5, c6] ∧
        ∀ c ∈ [c1, c2, c3, c4, c5, c6], c ∈ hexDigitChars := by
  rw [convertHexToRGB.eq_def]
  split
  · next a b c d e f heq =>
    constructor
    · intro hs
      refine ⟨a, b, c, d, e, f, heq, ?_⟩
      cases h1 : hexPairVal? a b <;> cases h2 : hexPairVal? c d <;>
        cases h3 : hexPairVal? e f <;> simp [h1, h2, h3] at hs
      have m1 := (hexPairVal_isSome_iff a b).mp (by simp [h1])
      have m2 := (hexPairVal_isSome_iff c d).mp (by simp [h2])
      have m3 := (hexPairVal_isSome_iff e f).mp (by simp [h3])
      simp [m1.1, m1.2, m2.1, m2.2, m3.1, m3.2]
    · rintro ⟨c1, c2, c3, c4, c5, c6, hs, hmem⟩
      rw [heq] at hs
      injection hs with h1 hs; injection hs with h2 hs; injection hs with h3 hs
      injection hs with h4 hs; injection hs with h5 hs; injection hs with h6 _
      subst h1; subst h2; subst h3; subst h4; subst h5; subst h6
      simp only [List.mem_cons, List.not_mem_nil, or_false] at hmem
      have m1 : (hexPairVal? a b).isSome := (hexPairVal_isSome_iff a b).mpr
        ⟨hmem a (by tauto), hmem b (by tauto)⟩
      have m2 : (hexPairVal? c d).isSome := (hexPairVal_isSome_iff c d).mpr
        ⟨hmem c (by tauto), hmem d (by tauto)⟩
      have m3 : (hexPairVal? e f).isSome := (hexPairVal_isSome_iff e f).mpr
        ⟨hmem e (by tauto), hmem f (by tauto)⟩
      cases h1 : hexPairVal? a b <;> cases h2 : hexPairVal? c d <;>
        cases h3 : hexPairVal? e f <;> simp_all
  · next hne =>
    simp only [Option.isSome_none, Bool.false_eq_true, false_iff]
    rintro ⟨c1, c2, c3, c4, c5, c6, hs, _⟩
    exact hne c1 c2 c3 c4 c5 c6 hs

theorem validHexString_iff_parse (l : List Char) :
    ValidHexString l ↔
      ∃ c1 c2 c3 c4 c5 c6, stripHash l = [c1, c2, c3, c4, c5, c6] ∧
        ∀ c ∈ [c1, c2, c3, c4, c5, c6], c ∈ hexDigitChars := by
  constructor
  · rintro ⟨core, hlen, hhex, hl | hl⟩
    · rcases core with _ | ⟨c1, _ | ⟨c2, _ | ⟨c3, _ | ⟨c4, _ | ⟨c5, _ | ⟨c6, rest⟩⟩⟩⟩⟩⟩ <;>
        simp only [List.length] at hlen <;> try omega
      rcases rest with _ | ⟨c7, rest⟩
      · refine ⟨c1, c2, c3, c4, c5, c6, ?_, hhex⟩
        have hc1 : c1 ≠ '#' := by
          intro hc
          have := hhex c1 (by simp)
          rw [hc] at this
          revert this
          decide
        rw [hl]
        exact stripHash_cons_of_ne c1 _ hc1
      · simp at hlen
    · rcases core with _ | ⟨c1, _ | ⟨c2, _ | ⟨c3, _ | ⟨c4, _ | ⟨c5, _ | ⟨c6, rest⟩⟩⟩⟩⟩⟩ <;>
        simp only [List.length] at hlen <;> try omega
      rcases rest with _ | ⟨c7, rest⟩
      · exact ⟨c1, c2, c3, c4, c5, c6, by rw [hl]; rfl, hhex⟩
      · simp at hlen
  · rintro ⟨c1, c2, c3, c4, c5, c6, hs, hmem⟩
    rcases l with _ | ⟨h, tl⟩
    · simp [stripHash] at hs
    · by_cases hh : h = '#'
      · subst hh
        refine ⟨tl, ?_, ?_, Or.inr rfl⟩
        · have : stripHash ('#' :: tl) = tl := rfl
          rw [this] at hs
          rw [hs]; rfl
        · have : stripHash ('#' :: tl) = tl := rfl
          rw [this] at hs
          rw [hs]; exact hmem
      · rw [stripHash_cons_of_ne h tl hh] at hs
        exact ⟨h :: tl, by rw [hs]; rfl, by rw [hs]; exact hmem, Or.inl rfl⟩

theorem convertHexToRGB_eq_none_iff (l : List Char) :
    convertHexToRGB l = none ↔ ¬ ValidHexString l := by
  rw [validHexString_iff_parse, ← convertHexToRGB_isSome_iff]
  cases h : convertHexToRGB l <;> simp [h]

/-- C8 (confirmed): construction, `setTarget` and `setValue` of a
`ColorAnimator` fail (throw, modelled by `none`) exactly when the given
string does not consist of six hexadecimal digits with an optional leading
`#`; the hex conversion runs before any channel animator is touched, so a
failing call returns `none` with no partially updated channel state. -/
theorem colorAnimator_invalid_hex_error (ca : ColorAnimator) (l : List Char)
    (e : ℚ → ℚ) (d t now : ℚ) :
    (ColorAnimator.create l e d t = none ↔ ¬ ValidHexString l) ∧
    (ca.setTarget l now = none ↔ ¬ ValidHexString l) ∧
    (ca.setValue l = none ↔ ¬ ValidHexString l) := by
  rw [ColorAnimator.create, ColorAnimator.setTarget, ColorAnimator.setValue]
  rw [← convertHexToRGB_eq_none_iff]
  cases h : convertHexToRGB l <;> simp [h]

theorem lowerHex_val (c : Char) (h : c ∈ lowerHexChars) :
    ∃ v, hexDigitVal? c = some v ∧ v < 16 ∧ hexChar v = c := by
  rw [lowerHexChars, decimalChars, List.mem_append] at h
  rcases h with h | h <;> fin_cases h <;> exact ⟨_, rfl, by norm_num, by decide⟩

theorem padStart2_natToHex_pair_fin (a b : Fin 16) :
    padStart2 (natToHex (16 * a.val + b.val)) = [hexChar a.val, hexChar b.val] := by
  revert a b
  decide

theorem padStart2_natToHex_pair (v1 v2 : ℕ) (h1 : v1 < 16) (h2 : v2 < 16) :
    padStart2 (natToHex (16 * v1 + v2)) = [hexChar v1, hexChar v2] :=
  padStart2_natToHex_pair_fin ⟨v1, h1⟩ ⟨v2, h2⟩

theorem jsRound_natCast (n : ℕ) : jsRound (n : ℚ) = n := by
  rw [jsRound]
  rw [show ((n : ℚ) + 1 / 2) = ((n : ℤ) : ℚ) + 1 / 2 by push_cast; ring]
  rw [Int.floor_int_add]
  rw [show ⌊(1 / 2 : ℚ)⌋ = 0 from by rw [Int.floor_eq_iff] <;> norm_num]
  ring

theorem intToHex_natCast (n : ℕ) : intToHex (n : ℤ) = natToHex n := by
  rw [intToHex, if_neg (not_lt.mpr (Int.natCast_nonneg n))]
  simp

/-- C9 (confirmed): for every 6-digit lowercase hexadecimal color string
with a leading `#`, a freshly constructed `ColorAnimator` returns exactly
that string from `getValue()` — decoding to RGB, rounding and re-encoding
is the identity on such inputs. -/
theorem colorAnimator_hex_roundtrip (c1 c2 c3 c4 c5 c6 : Char)
    (h : ∀ c ∈ [c1, c2, c3, c4, c5, c6], c ∈ lowerHexChars)
    (e : ℚ → ℚ) (d t : ℚ) :
    (ColorAnimator.create ('#' :: [c1, c2, c3, c4, c5, c6]) e d t).map
        ColorAnimator.getValue = some ('#' :: [c1, c2, c3, c4, c5, c6]) := by
  obtain ⟨v1, hv1, hl1, hc1⟩ := lowerHex_val c1 (h c1 (by simp))
  obtain ⟨v2, hv2, hl2, hc2⟩ := lowerHex_val c2 (h c2 (by simp))
  obtain ⟨v3, hv3, hl3, hc3⟩ := lowerHex_val c3 (h c3 (by simp))
  obtain ⟨v4, hv4, hl4, hc4⟩ := lowerHex_val c4 (h c4 (by simp))
  obtain ⟨v5, hv5, hl5, hc5⟩ := lowerHex_val c5 (h c5 (by simp))
  obtain ⟨v6, hv6, hl6, hc6⟩ := lowerHex_val c6 (h c6 (by simp))
  have hparse : convertHexToRGB ('#' :: [c1, c2, c3, c4, c5, c6]) =
      some (((16 * v1 + v2 : ℕ) : ℚ), ((16 * v3 + v4 : ℕ) : ℚ), ((16 * v5 + v6 : ℕ) : ℚ)) := by
    have hs : stripHash ('#' :: [c1, c2, c3, c4, c5, c6]) = [c1, c2, c3, c4, c5, c6] := rfl
    rw [convertHexToRGB.eq_def, hs]
    simp [hexPairVal?, hv1, hv2, hv3, hv4, hv5, hv6]
  rw [ColorAnimator.create, hparse]
  simp only [Option.map_some', ColorAnimator.getValue]
  have hg : ∀ q : ℚ, (Animator.create q e d t).getValue = q := fun _ => rfl
  rw [hg, hg, hg]
  rw [jsRound_natCast, jsRound_natCast, jsRound_natCast]
  rw [convertRGBToHex]
  rw [intToHex_natCast, intToHex_natCast, intToHex_natCast]
  rw [padStart2_natToHex_pair v1 v2 hl1 hl2, padStart2_natToHex_pair v3 v4 hl3 hl4,
    padStart2_natToHex_pair v5 v6 hl5 hl6]
  rw [hc1, hc2, hc3, hc4, hc5, hc6]
  rfl

/-- Witness for C9 at the spec's concrete example color. -/
theorem colorAnimator_hex_roundtrip_witness :
    (∀ c ∈ ['3', '3', '6', '6', '9', '9'], c ∈ lowerHexChars) ∧
    (ColorAnimator.create ('#' :: ['3', '3', '6', '6', '9', '9'])
        easeInOutCubic 1000 0).map ColorAnimator.getValue =
      some ('#' :: ['3', '3', '6', '6', '9', '9']) :=
  ⟨by decide,
    colorAnimator_hex_roundtrip '3' '3' '6' '6' '9' '9' (by decide) easeInOutCubic 1000 0⟩

/-! CanvasControl (`src/lib/canvas-control/canvas-control.js`, final
Animator-based version).  The 2D canvas context is modelled by the three
numbers set through `ctx.setTransform(scale, 0, 0, scale, tx, ty)`; its
initial transform is the identity.  `Math.pow` is an external primitive
and appears as the `mathPow` field of the options record (instantiated
with `Real.rpow` over `ℝ`).  `performance.now()` readings are explicit
`now` arguments. -/

/-- Embedding of the `ControlOptions` record (after the constructor's
merge with `defaultOptions`), plus the external `Math.pow` primitive used
by `easeVelocity`. -/
structure ControlOptions (α : Type) where
  decayFactor : α
  decayDuration : α
  velocityThreshold : α
  defaultScale : α
  scaleEasingDuration : α
  pinchScaleSensitivity : α
  maxScale : α
  minScale : α
  getNextScale : α → α
  getPreviousScale : α → α
  mathPow : α → α → α

/-- Embedding of the `ScalingOptions` record of `setScale`; `none` for a
coordinate means the argument was omitted and the canvas-center default of
the destructuring applies. -/
structure ScalingOptions (α : Type) where
  ease : Bool
  x : Option α
  y : Option α

/-- State of the `CanvasControl` class: configuration, canvas dimensions,
pan and momentum state, the internal scale `Animator`, the scale focal
point, and the canvas context transform (diagonal `setTransform` form). -/
structure CanvasControl (α : Type) where
  options : ControlOptions α
  canvasWidth : ℕ
  canvasHeight : ℕ
  panning : Bool
  initialCenterX : α
  initialCenterY : α
  lastTime : α
  translationX : α
  translationY : α
  panX : α
  panY : α
  lastPanX : α
  lastPanY : α
  deltaPanX : α
  deltaPanY : α
  scaleAnimator : Animator α
  scaleX : α
  scaleY : α
  ctxScale : α
  ctxTx : α
  ctxTy : α

namespace CanvasControl

/-- Embedding of the `CanvasControl` constructor: class field
initialisers (zeroes, `panning = false`), merged options, and the scale
animator created at `defaultScale` with easing `"ease-out-cubic"` and
duration `scaleEasingDuration`; the canvas context starts with the
identity transform. -/
def create (w h : ℕ) (opts : ControlOptions α) (now : α) : CanvasControl α where
  options := opts
  canvasWidth := w
  canvasHeight := h
  panning := false
  initialCenterX := 0
  initialCenterY := 0
  lastTime := 0
  translationX := 0
  translationY := 0
  panX := 0
  panY := 0
  lastPanX := 0
  lastPanY := 0
  deltaPanX := 0
  deltaPanY := 0
  scaleAnimator := Animator.create opts.defaultScale easeOutCubic opts.scaleEasingDuration now
  scaleX := 0
  scaleY := 0
  ctxScale := 1
  ctxTx := 0
  ctxTy := 0

/-- Embedding of `CanvasControl.init`: computes the initial canvas center
(`width >> 1`, `height >> 1`). -/
def init (s : CanvasControl α) : CanvasControl α :=
  { s with initialCenterX := ((s.canvasWidth >>> 1 : ℕ) : α),
           initialCenterY := ((s.canvasHeight >>> 1 : ℕ) : α) }

/-- Embedding of `CanvasControl.getWorldCoordinates`: applies the inverse
of the context transform `setTransform(k, 0, 0, k, tx, ty)` to the screen
point. -/
def getWorldCoordinates (s : CanvasControl α) (x y : α) : α × α :=
  ((x - s.ctxTx) / s.ctxScale, (y - s.ctxTy) / s.ctxScale)

/-- Embedding of `CanvasControl.adjustScaleTranslation`: recomputes the
translation so that the focal screen point `(scaleX, scaleY)` maps to the
same world point at the animator's current scale value. -/
def adjustScaleTranslation (s : CanvasControl α) : CanvasControl α :=
  { s with
    translationX := s.scaleX - s.initialCenterX -
      s.scaleAnimator.getValue * (s.getWorldCoordinates s.scaleX s.scaleY).1,
    translationY := s.scaleY - s.initialCenterY -
      s.scaleAnimator.getValue * (s.getWorldCoordinates s.scaleX s.scaleY).2 }

/-- Embedding of `CanvasControl.applyTransform`:
`ctx.setTransform(scale, 0, 0, scale, translationX + initialCenterX,
translationY + initialCenterY)`. -/
def applyTransform (s : CanvasControl α) : CanvasControl α :=
  { s with ctxScale := s.scaleAnimator.getValue,
           ctxTx := s.translationX + s.initialCenterX,
           ctxTy := s.translationY + s.initialCenterY }

/-- Embedding of `CanvasControl.updatePosition`: while panning, the pan
delta since the last frame is recorded and added to the translation. -/
def updatePosition (s : CanvasControl α) : CanvasControl α :=
  if s.panning then
    { s with deltaPanX := s.panX - s.lastPanX,
             deltaPanY := s.panY - s.lastPanY,
             translationX := s.translationX + (s.panX - s.lastPanX),
             translationY := s.translationY + (s.panY - s.lastPanY) }
  else s

/-- Embedding of `CanvasControl.easeVelocity`: after release, while the
squared velocity is at least `velocityThreshold²`, the undecayed delta is
added to the translation and the delta is then scaled by
`Math.pow(decayFactor, elapsed / decayDuration)`. -/
def easeVelocity (s : CanvasControl α) (now : α) : CanvasControl α :=
  if s.panning then s
  else if s.deltaPanX ^ 2 + s.deltaPanY ^ 2 < s.options.velocityThreshold ^ 2 then s
  else
    { s with
      translationX := s.translationX + s.deltaPanX,
      translationY := s.translationY + s.deltaPanY,
      deltaPanX := s.deltaPanX *
        s.options.mathPow s.options.decayFactor ((now - s.lastTime) / s.options.decayDuration),
      deltaPanY := s.deltaPanY *
        s.options.mathPow s.options.decayFactor ((now - s.lastTime) / s.options.decayDuration) }

/-- Embedding of `CanvasControl.easeScale`: when the scale animator has
not ended, advance it and re-adjust the translation around the focal
point. -/
def easeScale (s : CanvasControl α) (now : α) : CanvasControl α :=
  if s.scaleAnimator.hasEnded then s
  else adjustScaleTranslation { s with scaleAnimator := s.scaleAnimator.step now }

/-- Final statements of `CanvasControl.step`: snapshot `lastPanX`,
`lastPanY` and `lastTime` for the next frame. -/
def stepWriteback (s : CanvasControl α) (now : α) : CanvasControl α :=
  { s with lastPanX := s.panX, lastPanY := s.panY, lastTime := now }

/-- Embedding of `CanvasControl.step`: `updatePosition`, `easeVelocity`,
`easeScale`, `applyTransform`, then the `lastPan*` / `lastTime`
snapshot. -/
def step (s : CanvasControl α) (now : α) : CanvasControl α :=
  stepWriteback (applyTransform (easeScale (easeVelocity (updatePosition s) now) now)) now

/-- Embedding of `CanvasControl.panStart`: enters panning and records the
pointer position as both the current and the last pan position. -/
def panStart (s : CanvasControl α) (x y : α) : CanvasControl α :=
  { s with panning := true, lastPanX := x, lastPanY := y, panX := x, panY := y }

/-- Embedding of `CanvasControl.panEnd`. -/
def panEnd (s : CanvasControl α) : CanvasControl α :=
  { s with panning := false }

/-- Embedding of `CanvasControl.panTo`. -/
def panTo (s : CanvasControl α) (x y : α) : CanvasControl α :=
  { s with panX := x, panY := y }

/-- Embedding of `CanvasControl.getScale`: the scale animator's target. -/
def getScale (s : CanvasControl α) : α :=
  s.scaleAnimator.getTarget

/-- Embedding of `CanvasControl.setScale`: clamps the requested scale to
`[minScale, maxScale]`, retargets the scale animator, records the focal
point (defaulting to the canvas center), and with `ease: false` completes
the animation immediately and re-adjusts the translation. -/
def setScale (s : CanvasControl α) (scale : α) (opts : ScalingOptions α) (now : α) :
    CanvasControl α :=
  let focalX := opts.x.getD ((s.canvasWidth >>> 1 : ℕ) : α)
  let focalY := opts.y.getD ((s.canvasHeight >>> 1 : ℕ) : α)
  let clampedScale := clamp scale s.options.minScale s.options.maxScale
  let s1 := { s with scaleAnimator := s.scaleAnimator.setTarget clampedScale now,
                     scaleX := focalX, scaleY := focalY }
  if opts.ease then s1
  else adjustScaleTranslation { s1 with scaleAnimator := s1.scaleAnimator.end }

/-- Embedding of `CanvasControl.zoomIn`: applies `getNextScale` to the
current target and delegates to `setScale`. -/
def zoomIn (s : CanvasControl α) (opts : ScalingOptions α) (now : α) : CanvasControl α :=
  setScale s (s.options.getNextScale s.scaleAnimator.getTarget) opts now

/-- Embedding of `CanvasControl.zoomOut`: applies `getPreviousScale` to
the current target and delegates to `setScale`. -/
def zoomOut (s : CanvasControl α) (opts : ScalingOptions α) (now : α) : CanvasControl α :=
  setScale s (s.options.getPreviousScale s.scaleAnimator.getTarget) opts now

/-- Embedding of `CanvasControl.getUserX`. -/
def getUserX (s : CanvasControl α) : α :=
  -s.translationX / s.scaleAnimator.getTarget

/-- Embedding of `CanvasControl.setUserX`. -/
def setUserX (s : CanvasControl α) (x : α) : CanvasControl α :=
  { s with translationX := -x * s.scaleAnimator.getTarget }

/-- Embedding of `CanvasControl.getUserY`. -/
def getUserY (s : CanvasControl α) : α :=
  -s.translationY / s.scaleAnimator.getTarget

/-- Embedding of `CanvasControl.setUserY`. -/
def setUserY (s : CanvasControl α) (y : α) : CanvasControl α :=
  { s with translationY := -y * s.scaleAnimator.getTarget }

end CanvasControl

/-- One public viewport-controller call, for quantifying over arbitrary
call sequences. -/
inductive COp (α : Type) where
  | init : COp α
  | step (now : α) : COp α
  | panStart (x y : α) : COp α
  | panTo (x y : α) : COp α
  | panEnd : COp α
  | setScale (v : α) (opts : ScalingOptions α) (now : α) : COp α
  | zoomIn (opts : ScalingOptions α) (now : α) : COp α
  | zoomOut (opts : ScalingOptions α) (now : α) : COp α
  | setUserX (v : α) : COp α
  | setUserY (v : α) : COp α

/-- Interpretation of one call on a controller state. -/
def applyOp (s : CanvasControl α) : COp α → CanvasControl α
  | COp.init => s.init
  | COp.step now => s.step now
  | COp.panStart x y => s.panStart x y
  | COp.panTo x y => s.panTo x y
  | COp.panEnd => s.panEnd
  | COp.setScale v opts now => s.setScale v opts now
  | COp.zoomIn opts now => s.zoomIn opts now
  | COp.zoomOut opts now => s.zoomOut opts now
  | COp.setUserX v => s.setUserX v
  | COp.setUserY v => s.setUserY v

/-- Interpretation of a call sequence, first call first. -/
def applyOps (ops : List (COp α)) (s : CanvasControl α) : CanvasControl α :=
  ops.foldl applyOp s

/-- Per-frame run of `step` against a schedule of `performance.now()`
readings: `run s times n` is the state after the first `n` frames. -/
def run (s : CanvasControl α) (times : ℕ → α) : ℕ → CanvasControl α
  | 0 => s
  | n + 1 => (run s times n).step (times n)

@[simp] theorem adjust_deltaPanX (s : CanvasControl α) :
    (s.adjustScaleTranslation).deltaPanX = s.deltaPanX := rfl

@[simp] theorem adjust_deltaPanY (s : CanvasControl α) :
    (s.adjustScaleTranslation).deltaPanY = s.deltaPanY := rfl

@[simp] theorem adjust_panning (s : CanvasControl α) :
    (s.adjustScaleTranslation).panning = s.panning := rfl

@[simp] theorem adjust_scaleAnimator (s : CanvasControl α) :
    (s.adjustScaleTranslation).scaleAnimator = s.scaleAnimator := rfl

@[simp] theorem adjust_options (s : CanvasControl α) :
    (s.adjustScaleTranslation).options = s.options := rfl

@[simp] theorem applyTransform_deltaPanX (s : CanvasControl α) :
    (s.applyTransform).deltaPanX = s.deltaPanX := rfl

@[simp] theorem applyTransform_deltaPanY (s : CanvasControl α) :
    (s.applyTransform).deltaPanY = s.deltaPanY := rfl

@[simp] theorem applyTransform_panning (s : CanvasControl α) :
    (s.applyTransform).panning = s.panning := rfl

@[simp] theorem applyTransform_scaleAnimator (s : CanvasControl α) :
    (s.applyTransform).scaleAnimator = s.scaleAnimator := rfl

@[simp] theorem applyTransform_options (s : CanvasControl α) :
    (s.applyTransform).options = s.options := rfl

@[simp] theorem stepWriteback_deltaPanX (s : CanvasControl α) (now : α) :
    (s.stepWriteback now).deltaPanX = s.deltaPanX := rfl

@[simp] theorem stepWriteback_deltaPanY (s : CanvasControl α) (now : α) :
    (s.stepWriteback now).deltaPanY = s.deltaPanY := rfl

@[simp] theorem stepWriteback_panning (s : CanvasControl α) (now : α) :
    (s.stepWriteback now).panning = s.panning := rfl

@[simp] theorem stepWriteback_scaleAnimator (s : CanvasControl α) (now : α) :
    (s.stepWriteback now).scaleAnimator = s.scaleAnimator := rfl

@[simp] theorem stepWriteback_options (s : CanvasControl α) (now : α) :
    (s.stepWriteback now).options = s.options := rfl

@[simp] theorem updatePosition_panning (s : CanvasControl α) :
    (s.updatePosition).panning = s.panning := by
  rw [CanvasControl.updatePosition]; split <;> rfl

@[simp] theorem updatePosition_scaleAnimator (s : CanvasControl α) :
    (s.updatePosition).scaleAnimator = s.scaleAnimator := by
  rw [CanvasControl.updatePosition]; split <;> rfl

@[simp] theorem updatePosition_options (s : CanvasControl α) :
    (s.updatePosition).options = s.options := by
  rw [CanvasControl.updatePosition]; split <;> rfl

@[simp] theorem easeVelocity_panning (s : CanvasControl α) (now : α) :
    (s.easeVelocity now).panning = s.panning := by
  rw [CanvasControl.easeVelocity]; split_ifs <;> rfl

@[simp] theorem easeVelocity_scaleAnimator (s : CanvasControl α) (now : α) :
    (s.easeVelocity now).scaleAnimator = s.scaleAnimator := by
  rw [CanvasControl.easeVelocity]; split_ifs <;> rfl

@[simp] theorem easeVelocity_options (s : CanvasControl α) (now : α) :
    (s.easeVelocity now).options = s.options := by
  rw [CanvasControl.easeVelocity]; split_ifs <;> rfl

@[simp] theorem easeScale_deltaPanX (s : CanvasControl α) (now : α) :
    (s.easeScale now).deltaPanX = s.deltaPanX := by
  rw [CanvasControl.easeScale]; split <;> rfl

@[simp] theorem easeScale_deltaPanY (s : CanvasControl α) (now : α) :
    (s.easeScale now).deltaPanY = s.deltaPanY := by
  rw [CanvasControl.easeScale]; split <;> rfl

@[simp] theorem easeScale_panning (s : CanvasControl α) (now : α) :
    (s.easeScale now).panning = s.panning := by
  rw [CanvasControl.easeScale]; split <;> rfl

@[simp] theorem easeScale_options (s : CanvasControl α) (now : α) :
    (s.easeScale now).options = s.options := by
  rw [CanvasControl.easeScale]; split <;> rfl

theorem easeScale_scaleTarget (s : CanvasControl α) (now : α) :
    (s.easeScale now).scaleAnimator.target = s.scaleAnimator.target := by
  rw [CanvasControl.easeScale]
  split
  · rfl
  · simp

theorem easeVelocity_of_panning (s : CanvasControl α) (now : α) (h : s.panning = true) :
    s.easeVelocity now = s := by
  rw [CanvasControl.easeVelocity, if_pos h]

theorem easeVelocity_of_slow (s : CanvasControl α) (now : α)
    (h : s.deltaPanX ^ 2 + s.deltaPanY ^ 2 < s.options.velocityThreshold ^ 2) :
    s.easeVelocity now = s := by
  rw [CanvasControl.easeVelocity]
  split_ifs <;> rfl

theorem updatePosition_of_panning (s : CanvasControl α) (h : s.panning = true) :
    s.updatePosition =
      { s with deltaPanX := s.panX - s.lastPanX,
               deltaPanY := s.panY - s.lastPanY,
               translationX := s.translationX + (s.panX - s.lastPanX),
               translationY := s.translationY + (s.panY - s.lastPanY) } := by
  rw [CanvasControl.updatePosition, if_pos h]

theorem updatePosition_of_not_panning (s : CanvasControl α) (h : s.panning = false) :
    s.updatePosition = s := by
  rw [CanvasControl.updatePosition, if_neg (by rw [h]; exact Bool.false_ne_true)]

theorem step_deltaPanX_eq (s : CanvasControl α) (now : α) :
    (s.step now).deltaPanX = ((s.updatePosition).easeVelocity now).deltaPanX := by
  rw [CanvasControl.step]; simp

theorem step_deltaPanY_eq (s : CanvasControl α) (now : α) :
    (s.step now).deltaPanY = ((s.updatePosition).easeVelocity now).deltaPanY := by
  rw [CanvasControl.step]; simp

/-- C7 (amended): `panStart(x, y)` enters the panning state and records
`(x, y)` as both the current and the last pointer position, but it leaves
the momentum deltas `deltaPanX`/`deltaPanY` unchanged rather than zeroing
them; because the current and last pan positions coincide afterward, the
first subsequent `step` (absent an intervening `panTo`) recomputes both
deltas as zero, so a previous gesture's decaying velocity adds no
translation during the new gesture. -/
theorem panStart_effect (s : CanvasControl α) (x y t : α) :
    s.panStart x y =
      { s with panning := true, lastPanX := x, lastPanY := y, panX := x, panY := y } ∧
    (s.panStart x y).deltaPanX = s.deltaPanX ∧
    (s.panStart x y).deltaPanY = s.deltaPanY ∧
    ((s.panStart x y).step t).deltaPanX = 0 ∧
    ((s.panStart x y).step t).deltaPanY = 0 := by
  refine ⟨rfl, rfl, rfl, ?_, ?_⟩
  · rw [step_deltaPanX_eq,
      easeVelocity_of_panning _ t (by rw [updatePosition_panning]; rfl),
      updatePosition_of_panning _ rfl]
    show x - x = 0
    ring
  · rw [step_deltaPanY_eq,
      easeVelocity_of_panning _ t (by rw [updatePosition_panning]; rfl),
      updatePosition_of_panning _ rfl]
    show y - y = 0
    ring

/-- Stand-in for the external `Math.pow` primitive in rational test
states; the claims that evaluate these states never depend on its value
(the decay branch multiplies only the deltas by it). -/
def qPowStub : ℚ → ℚ → ℚ := fun a _ => a

/-- Default `ControlOptions` of the source (`defaultOptions`), over `ℚ`. -/
def qOpts : ControlOptions ℚ where
  decayFactor := 17 / 20
  decayDuration := 25
  velocityThreshold := 1 / 2
  defaultScale := 1
  scaleEasingDuration := 100
  pinchScaleSensitivity := 1 / 200
  maxScale := 8
  minScale := 1 / 8
  getNextScale := fun s => s * 2
  getPreviousScale := fun s => s / 2
  mathPow := qPowStub

/-- Controller on an 800×600 canvas with default options, fresh after
`create` and `init`. -/
def baseCtrl : CanvasControl ℚ :=
  CanvasControl.init (CanvasControl.create 800 600 qOpts 0)

/-- Controller state right after a flick: pan started at (0,0), moved to
(10,10), one frame stepped, then released — the momentum deltas hold
(10, 10). -/
def flickState : CanvasControl ℚ :=
  CanvasControl.panEnd ((CanvasControl.panTo (CanvasControl.panStart baseCtrl 0 0) 10 10).step 1)

theorem flickState_deltaPanX : flickState.deltaPanX = 10 := by
  show ((CanvasControl.panTo (CanvasControl.panStart baseCtrl 0 0) 10 10).step 1).deltaPanX = 10
  rw [step_deltaPanX_eq,
    easeVelocity_of_panning _ 1 (by rw [updatePosition_panning]; rfl),
    updatePosition_of_panning _ rfl]
  show (10 : ℚ) - 0 = 10
  norm_num

theorem flickState_deltaPanY : flickState.deltaPanY = 10 := by
  show ((CanvasControl.panTo (CanvasControl.panStart baseCtrl 0 0) 10 10).step 1).deltaPanY = 10
  rw [step_deltaPanY_eq,
    easeVelocity_of_panning _ 1 (by rw [updatePosition_panning]; rfl),
    updatePosition_of_panning _ rfl]
  show (10 : ℚ) - 0 = 10
  norm_num

/-- C7 counterexample: on the concrete post-flick state with momentum
deltas (10, 10), `panStart(3, 4)` leaves `deltaPanX` and `deltaPanY` at
10 — they do not become zero, contradicting the claimed reset. -/
theorem panStart_does_not_reset_deltas :
    flickState.deltaPanX = 10 ∧ flickState.deltaPanY = 10 ∧
    (flickState.panStart 3 4).deltaPanX = 10 ∧
    (flickState.panStart 3 4).deltaPanY = 10 ∧
    (flickState.panStart 3 4).deltaPanX ≠ 0 := by
  refine ⟨flickState_deltaPanX, flickState_deltaPanY, ?_, ?_, ?_⟩
  · show flickState.deltaPanX = 10
    exact flickState_deltaPanX
  · show flickState.deltaPanY = 10
    exact flickState_deltaPanY
  · show flickState.deltaPanX ≠ 0
    rw [flickState_deltaPanX]
    norm_num

/-- C10 (confirmed): with a nonzero target scale, `setUserX(v)` followed
by `getUserX()` returns exactly `v` (and likewise for the Y axis), and the
setters write only the corresponding translation component, leaving the
scale animator and every other field of the controller unchanged. -/
theorem user_coordinate_roundtrip (s : CanvasControl α) (v : α)
    (h : s.scaleAnimator.getTarget ≠ 0) :
    (s.setUserX v).getUserX = v ∧ (s.setUserY v).getUserY = v ∧
    s.setUserX v = { s with translationX := -v * s.scaleAnimator.getTarget } ∧
    s.setUserY v = { s with translationY := -v * s.scaleAnimator.getTarget } := by
  refine ⟨?_, ?_, rfl, rfl⟩
  · show -(-v * s.scaleAnimator.getTarget) / s.scaleAnimator.getTarget = v
    field_simp
  · show -(-v * s.scaleAnimator.getTarget) / s.scaleAnimator.getTarget = v
    field_simp

/-- Witness for C10 on the fresh default controller (target scale 1). -/
theorem user_coordinate_roundtrip_witness :
    baseCtrl.scaleAnimator.getTarget ≠ 0 ∧
    ((baseCtrl.setUserX 7).getUserX = 7 ∧ (baseCtrl.setUserY 7).getUserY = 7 ∧
    baseCtrl.setUserX 7 = { baseCtrl with translationX := -7 * baseCtrl.scaleAnimator.getTarget } ∧
    baseCtrl.setUserY 7 = { baseCtrl with translationY := -7 * baseCtrl.scaleAnimator.getTarget }) :=
  ⟨by norm_num [baseCtrl, qOpts, CanvasControl.init, CanvasControl.create,
      Animator.create, Animator.getTarget],
    user_coordinate_roundtrip baseCtrl 7 (by norm_num [baseCtrl, qOpts, CanvasControl.init,
      CanvasControl.create, Animator.create, Animator.getTarget])⟩

theorem clamp_mem (v mn mx : α) (h : mn ≤ mx) :
    mn ≤ clamp v mn mx ∧ clamp v mn mx ≤ mx := by
  rw [clamp]
  split_ifs with h1 h2
  · exact ⟨h, le_refl mx⟩
  · exact ⟨le_refl mn, h⟩
  · exact ⟨le_of_lt (lt_of_not_le h2), le_of_lt (lt_of_not_le h1)⟩

theorem setScale_options (s : CanvasControl α) (v : α) (o : ScalingOptions α) (now : α) :
    (s.setScale v o now).options = s.options := by
  simp only [CanvasControl.setScale]
  split <;> rfl

theorem setScale_scaleTarget (s : CanvasControl α) (v : α) (o : ScalingOptions α) (now : α) :
    (s.setScale v o now).scaleAnimator.target =
      clamp v s.options.minScale s.options.maxScale := by
  simp only [CanvasControl.setScale]
  split <;> rfl

theorem step_options (s : CanvasControl α) (now : α) :
    (s.step now).options = s.options := by
  rw [CanvasControl.step]
  rw [stepWriteback_options, applyTransform_options, easeScale_options,
    easeVelocity_options, updatePosition_options]

theorem step_scaleTarget (s : CanvasControl α) (now : α) :
    (s.step now).scaleAnimator.target = s.scaleAnimator.target := by
  rw [CanvasControl.step]
  rw [stepWriteback_scaleAnimator, applyTransform_scaleAnimator, easeScale_scaleTarget,
    easeVelocity_scaleAnimator, updatePosition_scaleAnimator]

theorem applyOp_options (s : CanvasControl α) (op : COp α) :
    (applyOp s op).options = s.options := by
  cases op with
  | init => rfl
  | step now => exact step_options s now
  | panStart x y => rfl
  | panTo x y => rfl
  | panEnd => rfl
  | setScale v o now => exact setScale_options s v o now
  | zoomIn o now => exact setScale_options s _ o now
  | zoomOut o now => exact setScale_options s _ o now
  | setUserX v => rfl
  | setUserY v => rfl

theorem applyOp_scale_bounds (s : CanvasControl α) (op : COp α)
    (hmm : s.options.minScale ≤ s.options.maxScale)
    (hlo : s.options.minScale ≤ s.scaleAnimator.target)
    (hhi : s.scaleAnimator.target ≤ s.options.maxScale) :
    s.options.minScale ≤ (applyOp s op).scaleAnimator.target ∧
      (applyOp s op).scaleAnimator.target ≤ s.options.maxScale := by
  cases op with
  | init => exact ⟨hlo, hhi⟩
  | step now => rw [applyOp, step_scaleTarget]; exact ⟨hlo, hhi⟩
  | panStart x y => exact ⟨hlo, hhi⟩
  | panTo x y => exact ⟨hlo, hhi⟩
  | panEnd => exact ⟨hlo, hhi⟩
  | setScale v o now => rw [applyOp, setScale_scaleTarget]; exact clamp_mem _ _ _ hmm
  | zoomIn o now => rw [applyOp, CanvasControl.zoomIn, setScale_scaleTarget]
                    exact clamp_mem _ _ _ hmm
  | zoomOut o now => rw [applyOp, CanvasControl.zoomOut, setScale_scaleTarget]
                     exact clamp_mem _ _ _ hmm
  | setUserX v => exact ⟨hlo, hhi⟩
  | setUserY v => exact ⟨hlo, hhi⟩

/-- C5 (amended): provided the configuration puts the default scale
inside the scale bounds (`minScale ≤ defaultScale ≤ maxScale`, as the
source's `defaultOptions` do), `minScale ≤ getScale() ≤ maxScale` holds
from construction onward and after any sequence of public controller
calls with arbitrary requested values: `setScale` clamps at the point of
request and `zoomIn`/`zoomOut` delegate to it, while no other call
touches the target scale; no operation throws.  (Without the proviso the
invariant fails already at construction, since the constructor does not
clamp `defaultScale`.) -/
theorem scale_clamped_invariant (w h : ℕ) (opts : ControlOptions α) (now : α)
    (ops : List (COp α))
    (h1 : opts.minScale ≤ opts.defaultScale) (h2 : opts.defaultScale ≤ opts.maxScale) :
    opts.minScale ≤ (applyOps ops (CanvasControl.create w h opts now)).getScale ∧
      (applyOps ops (CanvasControl.create w h opts now)).getScale ≤ opts.maxScale := by
  have hmm : opts.minScale ≤ opts.maxScale := le_trans h1 h2
  suffices H : ∀ (s : CanvasControl α), s.options = opts →
      opts.minScale ≤ s.scaleAnimator.target → s.scaleAnimator.target ≤ opts.maxScale →
      opts.minScale ≤ (applyOps ops s).getScale ∧ (applyOps ops s).getScale ≤ opts.maxScale by
    exact H _ rfl h1 h2
  induction ops with
  | nil => intro s hopt hlo hhi; exact ⟨hlo, hhi⟩
  | cons op rest ih =>
      intro s hopt hlo hhi
      have hb := applyOp_scale_bounds s op (by rw [hopt]; exact hmm)
        (by rw [hopt]; exact hlo) (by rw [hopt]; exact hhi)
      rw [hopt] at hb
      exact ih (applyOp s op) (by rw [applyOp_options, hopt]) hb.1 hb.2

/-- Witness for the amended C5: the spec's two example requests
(`setScale(1000)` then `setScale(0.0001)`) against the default bounds. -/
theorem scale_clamped_invariant_witness :
    (qOpts.minScale ≤ qOpts.defaultScale ∧ qOpts.defaultScale ≤ qOpts.maxScale) ∧
    (qOpts.minScale ≤ (applyOps [COp.setScale 1000 ⟨true, none, none⟩ 1,
        COp.setScale (1 / 10000) ⟨true, none, none⟩ 2]
        (CanvasControl.create 800 600 qOpts 0)).getScale ∧
      (applyOps [COp.setScale 1000 ⟨true, none, none⟩ 1,
        COp.setScale (1 / 10000) ⟨true, none, none⟩ 2]
        (CanvasControl.create 800 600 qOpts 0)).getScale ≤ qOpts.maxScale) :=
  ⟨⟨by norm_num [qOpts], by norm_num [qOpts]⟩,
    scale_clamped_invariant 800 600 qOpts 0 _ (by norm_num [qOpts]) (by norm_num [qOpts])⟩

/-- Controller constructed with `defaultScale` 100 but `maxScale` 8; the
constructor stores the default scale unclamped. -/
def badScaleCtrl : CanvasControl ℚ :=
  CanvasControl.create 800 600 { qOpts with defaultScale := 100 } 0

/-- C5 counterexample: with a configuration whose `defaultScale` is 100
and `maxScale` is 8, `getScale()` is 100 right after construction, so the
claimed invariant over every configuration fails. -/
theorem scale_clamped_invariant_cex :
    badScaleCtrl.options.maxScale = 8 ∧ badScaleCtrl.getScale = 100 ∧
    ¬(badScaleCtrl.getScale ≤ badScaleCtrl.options.maxScale) := by
  refine ⟨rfl, rfl, ?_⟩
  show ¬((100 : ℚ) ≤ 8)
  norm_num

theorem easeScale_of_ended (s : CanvasControl α) (now : α)
    (h : s.scaleAnimator.hasEnded) : s.easeScale now = s := by
  rw [CanvasControl.easeScale, if_pos h]

theorem setScale_noEase_eq (s : CanvasControl α) (fx fy scale now : α) :
    s.setScale scale ⟨false, some fx, some fy⟩ now =
      { s with
        scaleAnimator := ⟨clamp scale s.options.minScale s.options.maxScale,
          clamp scale s.options.minScale s.options.maxScale,
          clamp scale s.options.minScale s.options.maxScale,
          s.scaleAnimator.ease, now, s.scaleAnimator.duration⟩,
        scaleX := fx, scaleY := fy,
        translationX := fx - s.initialCenterX -
          clamp scale s.options.minScale s.options.maxScale * ((fx - s.ctxTx) / s.ctxScale),
        translationY := fy - s.initialCenterY -
          clamp scale s.options.minScale s.options.maxScale * ((fy - s.ctxTy) / s.ctxScale) } :=
  rfl

/-- C2 (amended): on a controller that is quiescent on the pan axis (not
panning, squared momentum velocity below threshold) and whose scale
bounds are positive, a non-eased `setScale` around the focal screen point
`(fx, fy)` preserves that point's world coordinates: `getWorldCoordinates
(fx, fy)` is unchanged immediately after the call (the context transform
is only rewritten by the next `step`) and returns the same world point
after the next `step`, for any requested scale value. -/
theorem setScale_focal_point_preserved (s : CanvasControl α) (fx fy scale now t : α)
    (hpan : s.panning = false)
    (hvel : s.deltaPanX ^ 2 + s.deltaPanY ^ 2 < s.options.velocityThreshold ^ 2)
    (hmin : 0 < s.options.minScale) (hmm : s.options.minScale ≤ s.options.maxScale) :
    (s.setScale scale ⟨false, some fx, some fy⟩ now).getWorldCoordinates fx fy =
      s.getWorldCoordinates fx fy ∧
    ((s.setScale scale ⟨false, some fx, some fy⟩ now).step t).getWorldCoordinates fx fy =
      s.getWorldCoordinates fx fy := by
  have hcpos : 0 < clamp scale s.options.minScale s.options.maxScale :=
    lt_of_lt_of_le hmin (clamp_mem scale _ _ hmm).1
  have hcne : clamp scale s.options.minScale s.options.maxScale ≠ 0 := ne_of_gt hcpos
  refine ⟨rfl, ?_⟩
  rw [setScale_noEase_eq]
  rw [CanvasControl.step]
  rw [updatePosition_of_not_panning _ (by exact hpan)]
  rw [easeVelocity_of_slow _ _ (by exact hvel)]
  rw [easeScale_of_ended _ _ (by exact rfl)]
  show ((fx - (fx - s.initialCenterX -
      clamp scale s.options.minScale s.options.maxScale * ((fx - s.ctxTx) / s.ctxScale) +
      s.initialCenterX)) / clamp scale s.options.minScale s.options.maxScale,
    (fy - (fy - s.initialCenterY -
      clamp scale s.options.minScale s.options.maxScale * ((fy - s.ctxTy) / s.ctxScale) +
      s.initialCenterY)) / clamp scale s.options.minScale s.options.maxScale) =
    ((fx - s.ctxTx) / s.ctxScale, (fy - s.ctxTy) / s.ctxScale)
  rw [Prod.mk.injEq]
  constructor
  · field_simp
    ring
  · field_simp
    ring

theorem baseCtrl_eq : baseCtrl =
    ⟨qOpts, 800, 600, false, 400, 300, 0, 0, 0, 0, 0, 0, 0, 0, 0,
      Animator.create 1 easeOutCubic 100 0, 0, 0, 1, 0, 0⟩ := by
  rw [baseCtrl, CanvasControl.init, CanvasControl.create]
  norm_num [show (800 >>> 1 : ℕ) = 400 from by decide,
    show (600 >>> 1 : ℕ) = 300 from by decide]
  rfl

theorem flickState_literal : flickState =
    ⟨qOpts, 800, 600, false, 400, 300, 1, 10, 10, 10, 10, 10, 10, 10, 10,
      Animator.create 1 easeOutCubic 100 0, 0, 0, 1, 410, 310⟩ := by
  rw [flickState, baseCtrl_eq, CanvasControl.step,
    updatePosition_of_panning _ rfl,
    easeVelocity_of_panning _ 1 rfl,
    easeScale_of_ended _ _ (by exact rfl),
    CanvasControl.applyTransform, CanvasControl.stepWriteback, CanvasControl.panEnd]
  norm_num [CanvasControl.panTo, CanvasControl.panStart, Animator.getValue,
    Animator.create]

/-- C2 counterexample: on the concrete post-flick state (momentum deltas
(10, 10), threshold 0.5), the world point under screen point (0, 0) is
(-410, -310) before `setScale(2, { ease: false, x: 0, y: 0 })` and also
immediately after it, but during the next `step` the momentum decay adds
(10, 10) to the translation before the transform is rebuilt, and
`getWorldCoordinates(0, 0)` then returns (-415, -315): the focal point is
not preserved for every controller state. -/
theorem setScale_focal_point_cex :
    flickState.getWorldCoordinates 0 0 = (-410, -310) ∧
    (flickState.setScale 2 ⟨false, some 0, some 0⟩ 2).getWorldCoordinates 0 0 =
      (-410, -310) ∧
    ((flickState.setScale 2 ⟨false, some 0, some 0⟩ 2).step 3).getWorldCoordinates 0 0 =
      (-415, -315) ∧
    ((-415 : ℚ), (-315 : ℚ)) ≠ ((-410 : ℚ), (-310 : ℚ)) := by
  refine ⟨?_, ?_, ?_, by norm_num [Prod.ext_iff]⟩
  · rw [flickState_literal]
    norm_num [CanvasControl.getWorldCoordinates, Prod.ext_iff]
  · rw [flickState_literal, setScale_noEase_eq]
    norm_num [CanvasControl.getWorldCoordinates, Prod.ext_iff]
  · rw [flickState_literal, setScale_noEase_eq]
    norm_num [clamp, qOpts, CanvasControl.getWorldCoordinates, CanvasControl.step,
      CanvasControl.updatePosition, CanvasControl.easeVelocity, CanvasControl.easeScale,
      CanvasControl.applyTransform, CanvasControl.stepWriteback, CanvasControl.adjustScaleTranslation,
      Animator.hasEnded, Animator.getValue, qPowStub, Prod.ext_iff]

/-- Witness for the amended C2 on the quiescent fresh controller. -/
theorem setScale_focal_point_preserved_witness :
    (baseCtrl.panning = false ∧
      baseCtrl.deltaPanX ^ 2 + baseCtrl.deltaPanY ^ 2 <
        baseCtrl.options.velocityThreshold ^ 2 ∧
      0 < baseCtrl.options.minScale ∧
      baseCtrl.options.minScale ≤ baseCtrl.options.maxScale) ∧
    ((baseCtrl.setScale 2 ⟨false, some 3, some 4⟩ 1).getWorldCoordinates 3 4 =
        baseCtrl.getWorldCoordinates 3 4 ∧
      ((baseCtrl.setScale 2 ⟨false, some 3, some 4⟩ 1).step 2).getWorldCoordinates 3 4 =
        baseCtrl.getWorldCoordinates 3 4) :=
  ⟨⟨rfl, by norm_num [baseCtrl, qOpts, CanvasControl.init, CanvasControl.create],
    by norm_num [baseCtrl, qOpts, CanvasControl.init, CanvasControl.create],
    by norm_num [baseCtrl, qOpts, CanvasControl.init, CanvasControl.create]⟩,
    setScale_focal_point_preserved baseCtrl 3 4 2 1 2 rfl
      (by norm_num [baseCtrl, qOpts, CanvasControl.init, CanvasControl.create])
      (by norm_num [baseCtrl, qOpts, CanvasControl.init, CanvasControl.create])
      (by norm_num [baseCtrl, qOpts, CanvasControl.init, CanvasControl.create])⟩

/-! Momentum decay (claim C6).  The squared velocity read by
`easeVelocity`, per-step characterisations of `step` on a released
(non-panning, scale-settled) controller, and invariants of iterated
stepping. -/

/-- Squared momentum velocity `deltaPanX ** 2 + deltaPanY ** 2` compared
against `velocityThreshold ** 2` in `easeVelocity`. -/
def sqVelocity (s : CanvasControl α) : α :=
  s.deltaPanX ^ 2 + s.deltaPanY ^ 2

@[simp] theorem applyTransform_translationX (s : CanvasControl α) :
    (s.applyTransform).translationX = s.translationX := rfl

@[simp] theorem applyTransform_translationY (s : CanvasControl α) :
    (s.applyTransform).translationY = s.translationY := rfl

@[simp] theorem stepWriteback_translationX (s : CanvasControl α) (now : α) :
    (s.stepWriteback now).translationX = s.translationX := rfl

@[simp] theorem stepWriteback_translationY (s : CanvasControl α) (now : α) :
    (s.stepWriteback now).translationY = s.translationY := rfl

@[simp] theorem step_lastTime (s : CanvasControl α) (now : α) :
    (s.step now).lastTime = now := rfl

theorem step_panning (s : CanvasControl α) (now : α) :
    (s.step now).panning = s.panning := by
  rw [CanvasControl.step]
  rw [stepWriteback_panning, applyTransform_panning, easeScale_panning,
    easeVelocity_panning, updatePosition_panning]

theorem step_scaleAnimator_of_ended (s : CanvasControl α) (now : α)
    (hend : s.scaleAnimator.hasEnded) :
    (s.step now).scaleAnimator = s.scaleAnimator := by
  rw [CanvasControl.step]
  rw [stepWriteback_scaleAnimator, applyTransform_scaleAnimator]
  rw [easeScale_of_ended _ _ (by
    rw [show ((s.updatePosition).easeVelocity now).scaleAnimator.hasEnded =
      s.scaleAnimator.hasEnded from by
        rw [easeVelocity_scaleAnimator, updatePosition_scaleAnimator]]
    exact hend)]
  rw [easeVelocity_scaleAnimator, updatePosition_scaleAnimator]

/-- On a released, scale-settled controller whose momentum is already
below the threshold, `step` only rebuilds the transform and snapshots the
frame bookkeeping. -/
theorem step_of_slow (s : CanvasControl α) (now : α)
    (hpan : s.panning = false) (hend : s.scaleAnimator.hasEnded)
    (hvel : s.deltaPanX ^ 2 + s.deltaPanY ^ 2 < s.options.velocityThreshold ^ 2) :
    s.step now = (s.applyTransform).stepWriteback now := by
  rw [CanvasControl.step, updatePosition_of_not_panning _ hpan,
    easeVelocity_of_slow _ _ hvel, easeScale_of_ended _ _ hend]

/-- On a released, scale-settled controller with momentum at or above the
threshold, `step` adds the undecayed delta to the translation and scales
the delta by `Math.pow(decayFactor, elapsed / decayDuration)` before
rebuilding the transform. -/
theorem step_of_active (s : CanvasControl α) (now : α)
    (hpan : s.panning = false) (hend : s.scaleAnimator.hasEnded)
    (hvel : ¬ s.deltaPanX ^ 2 + s.deltaPanY ^ 2 < s.options.velocityThreshold ^ 2) :
    s.step now =
      (CanvasControl.applyTransform
        { s with
          translationX := s.translationX + s.deltaPanX,
          translationY := s.translationY + s.deltaPanY,
          deltaPanX := s.deltaPanX *
            s.options.mathPow s.options.decayFactor
              ((now - s.lastTime) / s.options.decayDuration),
          deltaPanY := s.deltaPanY *
            s.options.mathPow s.options.decayFactor
              ((now - s.lastTime) / s.options.decayDuration) }).stepWriteback now := by
  rw [CanvasControl.step, updatePosition_of_not_panning _ hpan]
  rw [CanvasControl.easeVelocity,
    if_neg (by rw [hpan]; exact Bool.false_ne_true), if_neg hvel]
  rw [easeScale_of_ended _ _ (by exact hend)]

theorem run_panning (s : CanvasControl α) (times : ℕ → α) (n : ℕ) :
    (run s times n).panning = s.panning := by
  induction n with
  | zero => rfl
  | succ n ih => rw [run, step_panning, ih]

theorem run_options (s : CanvasControl α) (times : ℕ → α) (n : ℕ) :
    (run s times n).options = s.options := by
  induction n with
  | zero => rfl
  | succ n ih => rw [run, step_options, ih]

theorem run_scaleAnimator_of_ended (s : CanvasControl α) (times : ℕ → α)
    (hend : s.scaleAnimator.hasEnded) (n : ℕ) :
    (run s times n).scaleAnimator = s.scaleAnimator := by
  induction n with
  | zero => rfl
  | succ n ih =>
      rw [run, step_scaleAnimator_of_ended _ _ (by rw [show (run s times n).scaleAnimator.hasEnded =
        s.scaleAnimator.hasEnded from by rw [ih]]; exact hend), ih]

theorem run_lastTime_succ (s : CanvasControl α) (times : ℕ → α) (n : ℕ) :
    (run s times (n + 1)).lastTime = times n := by
  rw [run, step_lastTime]

theorem run_succ (s : CanvasControl α) (times : ℕ → α) (n : ℕ) :
    run s times (n + 1) = (run s times n).step (times n) := rfl

/-- C6 (amended): on a released controller (not panning, scale animation
settled) whose configuration has `0 < decayFactor < 1`, a positive
velocity threshold, a positive decay duration and `Math.pow` as the power
primitive, stepping at timestamps whose successive gaps are bounded below
by a positive `ε`: (1) while the squared velocity is at or above
`velocityThreshold ^ 2`, every frame adds the undecayed delta to the
translation and then multiplies the delta by
`decayFactor ^ (elapsed / decayDuration)`; and (2) there is a frame `N`
from which on the squared velocity is below `velocityThreshold ^ 2`,
every later frame adds exactly zero translation, and the translation
stays constant at its value at `N` (so the accumulated translation is
eventually constant, hence convergent, with no residual drift). -/
theorem momentum_decay_terminates (s : CanvasControl ℝ) (times : ℕ → ℝ) (ε : ℝ)
    (hpow : s.options.mathPow = fun a b => a ^ b)
    (hpan : s.panning = false)
    (hend : s.scaleAnimator.hasEnded)
    (hf0 : 0 < s.options.decayFactor) (hf1 : s.options.decayFactor < 1)
    (hθ : 0 < s.options.velocityThreshold)
    (hD : 0 < s.options.decayDuration)
    (hε : 0 < ε)
    (ht0 : s.lastTime + ε ≤ times 0)
    (hts : ∀ n, times n + ε ≤ times (n + 1)) :
    (∀ n, ¬ sqVelocity (run s times n) < s.options.velocityThreshold ^ 2 →
      (run s times (n + 1)).translationX =
          (run s times n).translationX + (run s times n).deltaPanX ∧
      (run s times (n + 1)).translationY =
          (run s times n).translationY + (run s times n).deltaPanY ∧
      (run s times (n + 1)).deltaPanX = (run s times n).deltaPanX *
          s.options.decayFactor ^
            ((times n - (run s times n).lastTime) / s.options.decayDuration) ∧
      (run s times (n + 1)).deltaPanY = (run s times n).deltaPanY *
          s.options.decayFactor ^
            ((times n - (run s times n).lastTime) / s.options.decayDuration)) ∧
    ∃ N, ∀ n, N ≤ n →
      sqVelocity (run s times n) < s.options.velocityThreshold ^ 2 ∧
      (run s times (n + 1)).translationX = (run s times n).translationX ∧
      (run s times (n + 1)).translationY = (run s times n).translationY ∧
      (run s times n).translationX = (run s times N).translationX ∧
      (run s times n).translationY = (run s times N).translationY := by
  have hRpan : ∀ n, (run s times n).panning = false := fun n => by
    rw [run_panning]; exact hpan
  have hRend : ∀ n, (run s times n).scaleAnimator.hasEnded := fun n => by
    rw [show (run s times n).scaleAnimator = s.scaleAnimator from
      run_scaleAnimator_of_ended s times hend n]
    exact hend
  have hRopt : ∀ n, (run s times n).options = s.options := run_options s times
  have hElapsed : ∀ n, ε ≤ times n - (run s times n).lastTime := by
    intro n
    cases n with
    | zero =>
        have h0 : (run s times 0).lastTime = s.lastTime := rfl
        rw [h0]
        linarith [ht0]
    | succ n =>
        rw [run_lastTime_succ]
        linarith [hts n]
  have hActive : ∀ n, ¬ sqVelocity (run s times n) < s.options.velocityThreshold ^ 2 →
      (run s times (n + 1)).translationX =
          (run s times n).translationX + (run s times n).deltaPanX ∧
      (run s times (n + 1)).translationY =
          (run s times n).translationY + (run s times n).deltaPanY ∧
      (run s times (n + 1)).deltaPanX = (run s times n).deltaPanX *
          s.options.decayFactor ^
            ((times n - (run s times n).lastTime) / s.options.decayDuration) ∧
      (run s times (n + 1)).deltaPanY = (run s times n).deltaPanY *
          s.options.decayFactor ^
            ((times n - (run s times n).lastTime) / s.options.decayDuration) := by
    intro n hv
    have hv' : ¬ (run s times n).deltaPanX ^ 2 + (run s times n).deltaPanY ^ 2 <
        (run s times n).options.velocityThreshold ^ 2 := by
      rw [hRopt n]; exact hv
    have hs := step_of_active (run s times n) (times n) (hRpan n) (hRend n) hv'
    rw [run_succ, hs]
    rw [hRopt n, hpow]
    refine ⟨rfl, rfl, rfl, rfl⟩
  have hSlow : ∀ n, sqVelocity (run s times n) < s.options.velocityThreshold ^ 2 →
      sqVelocity (run s times (n + 1)) = sqVelocity (run s times n) ∧
      (run s times (n + 1)).translationX = (run s times n).translationX ∧
      (run s times (n + 1)).translationY = (run s times n).translationY := by
    intro n hv
    have hv' : (run s times n).deltaPanX ^ 2 + (run s times n).deltaPanY ^ 2 <
        (run s times n).options.velocityThreshold ^ 2 := by
      rw [hRopt n]; exact hv
    have hs := step_of_slow (run s times n) (times n) (hRpan n) (hRend n) hv'
    rw [run_succ, hs]
    exact ⟨rfl, rfl, rfl⟩
  refine ⟨hActive, ?_⟩
  have hc0 : (0 : ℝ) < s.options.decayFactor ^ (ε / s.options.decayDuration) :=
    Real.rpow_pos_of_pos hf0 _
  have hc1 : s.options.decayFactor ^ (ε / s.options.decayDuration) < 1 :=
    Real.rpow_lt_one (le_of_lt hf0) hf1 (div_pos hε hD)
  have hc2 : (s.options.decayFactor ^ (ε / s.options.decayDuration)) ^ 2 < 1 := by
    nlinarith
  have hM0 : (0 : ℝ) ≤ sqVelocity s := by
    rw [sqVelocity]; positivity
  have hB : ∀ n, sqVelocity (run s times n) < s.options.velocityThreshold ^ 2 ∨
      sqVelocity (run s times n) ≤ sqVelocity s *
        ((s.options.decayFactor ^ (ε / s.options.decayDuration)) ^ 2) ^ n := by
    intro n
    induction n with
    | zero =>
        right
        have h0 : run s times 0 = s := rfl
        rw [h0, pow_zero, mul_one]
    | succ n ih =>
        by_cases hv : sqVelocity (run s times n) < s.options.velocityThreshold ^ 2
        · left
          rw [(hSlow n hv).1]
          exact hv
        · right
          obtain ⟨_, _, hdx, hdy⟩ := hActive n hv
          have hkpos : (0 : ℝ) < s.options.decayFactor ^
              ((times n - (run s times n).lastTime) / s.options.decayDuration) :=
            Real.rpow_pos_of_pos hf0 _
          have hkle : s.options.decayFactor ^
              ((times n - (run s times n).lastTime) / s.options.decayDuration) ≤
              s.options.decayFactor ^ (ε / s.options.decayDuration) := by
            apply Real.rpow_le_rpow_of_exponent_ge hf0 (le_of_lt hf1)
            exact (div_le_div_right hD).mpr (hElapsed n)
          have hsq : sqVelocity (run s times (n + 1)) = sqVelocity (run s times n) *
              (s.options.decayFactor ^
                ((times n - (run s times n).lastTime) / s.options.decayDuration)) ^ 2 := by
            rw [sqVelocity, sqVelocity, hdx, hdy]
            ring
          have hle : sqVelocity (run s times n) ≤ sqVelocity s *
              ((s.options.decayFactor ^ (ε / s.options.decayDuration)) ^ 2) ^ n := by
            rcases ih with h | h
            · exact absurd h hv
            · exact h
          have hsqnn : (0 : ℝ) ≤ sqVelocity (run s times n) := by
            rw [sqVelocity]; positivity
          have hk2 : (s.options.decayFactor ^
              ((times n - (run s times n).lastTime) / s.options.decayDuration)) ^ 2 ≤
              (s.options.decayFactor ^ (ε / s.options.decayDuration)) ^ 2 := by
            apply pow_le_pow_left (le_of_lt hkpos) hkle
          rw [hsq, pow_succ]
          calc sqVelocity (run s times n) *
              (s.options.decayFactor ^
                ((times n - (run s times n).lastTime) / s.options.decayDuration)) ^ 2 ≤
              (sqVelocity s *
                ((s.options.decayFactor ^ (ε / s.options.decayDuration)) ^ 2) ^ n) *
              (s.options.decayFactor ^ (ε / s.options.decayDuration)) ^ 2 := by
                apply mul_le_mul hle hk2 (by positivity) (by positivity)
          _ = sqVelocity s *
              (((s.options.decayFactor ^ (ε / s.options.decayDuration)) ^ 2) ^ n *
                (s.options.decayFactor ^ (ε / s.options.decayDuration)) ^ 2) := by
                ring
  obtain ⟨N, hN⟩ := exists_pow_lt_of_lt_one
    (show (0 : ℝ) < s.options.velocityThreshold ^ 2 / (sqVelocity s + 1) from
      div_pos (by positivity) (by linarith)) hc2
  have hNlt : sqVelocity (run s times N) < s.options.velocityThreshold ^ 2 := by
    rcases hB N with h | h
    · exact h
    · have h2 : (((s.options.decayFactor ^ (ε / s.options.decayDuration)) ^ 2) ^ N) *
          (sqVelocity s + 1) < s.options.velocityThreshold ^ 2 :=
        (lt_div_iff (by linarith)).mp hN
      have h3 : (0 : ℝ) ≤
          ((s.options.decayFactor ^ (ε / s.options.decayDuration)) ^ 2) ^ N := by
        positivity
      nlinarith
  refine ⟨N, ?_⟩
  intro n hn
  induction n, hn using Nat.le_induction with
  | base =>
      exact ⟨hNlt, (hSlow N hNlt).2.1, (hSlow N hNlt).2.2, rfl, rfl⟩
  | succ n hn ih =>
      obtain ⟨hvn, htx, hty, hTX, hTY⟩ := ih
      have hvn1 : sqVelocity (run s times (n + 1)) < s.options.velocityThreshold ^ 2 := by
        rw [(hSlow n hvn).1]
        exact hvn
      refine ⟨hvn1, (hSlow (n + 1) hvn1).2.1, (hSlow (n + 1) hvn1).2.2, ?_, ?_⟩
      · rw [htx, hTX]
      · rw [hty, hTY]

/-- Default `ControlOptions` of the source over `ℝ`, with `Math.pow`
instantiated by the real power function. -/
noncomputable def rOpts : ControlOptions ℝ where
  decayFactor := 17 / 20
  decayDuration := 25
  velocityThreshold := 1 / 2
  defaultScale := 1
  scaleEasingDuration := 100
  pinchScaleSensitivity := 1 / 200
  maxScale := 8
  minScale := 1 / 8
  getNextScale := fun s => s * 2
  getPreviousScale := fun s => s / 2
  mathPow := fun a b => a ^ b

/-- Released controller with momentum deltas (10, 10): the state right
after a flick, with default options over `ℝ`. -/
noncomputable def releasedCtrl : CanvasControl ℝ :=
  { CanvasControl.create 800 600 rOpts 0 with deltaPanX := 10, deltaPanY := 10 }

/-- Frame schedule with constant 25 ms gaps, starting 25 ms after the
released controller's `lastTime` of 0. -/
noncomputable def steadyTimes (n : ℕ) : ℝ := 25 * (n + 1)

/-- Witness for the amended C6: the released controller with velocity
(10, 10), default options and steady 25 ms frames. -/
theorem momentum_decay_terminates_witness :
    (releasedCtrl.options.mathPow = fun a b => a ^ b) ∧
    releasedCtrl.panning = false ∧
    releasedCtrl.scaleAnimator.hasEnded ∧
    (0 < releasedCtrl.options.decayFactor ∧ releasedCtrl.options.decayFactor < 1) ∧
    (0 < releasedCtrl.options.velocityThreshold ∧ 0 < releasedCtrl.options.decayDuration) ∧
    ((0 : ℝ) < 25 ∧ releasedCtrl.lastTime + 25 ≤ steadyTimes 0 ∧
      ∀ n, steadyTimes n + 25 ≤ steadyTimes (n + 1)) ∧
    ((∀ n, ¬ sqVelocity (run releasedCtrl steadyTimes n) <
        releasedCtrl.options.velocityThreshold ^ 2 →
      (run releasedCtrl steadyTimes (n + 1)).translationX =
          (run releasedCtrl steadyTimes n).translationX +
          (run releasedCtrl steadyTimes n).deltaPanX ∧
      (run releasedCtrl steadyTimes (n + 1)).translationY =
          (run releasedCtrl steadyTimes n).translationY +
          (run releasedCtrl steadyTimes n).deltaPanY ∧
      (run releasedCtrl steadyTimes (n + 1)).deltaPanX =
          (run releasedCtrl steadyTimes n).deltaPanX *
          releasedCtrl.options.decayFactor ^
            ((steadyTimes n - (run releasedCtrl steadyTimes n).lastTime) /
              releasedCtrl.options.decayDuration) ∧
      (run releasedCtrl steadyTimes (n + 1)).deltaPanY =
          (run releasedCtrl steadyTimes n).deltaPanY *
          releasedCtrl.options.decayFactor ^
            ((steadyTimes n - (run releasedCtrl steadyTimes n).lastTime) /
              releasedCtrl.options.decayDuration)) ∧
    ∃ N, ∀ n, N ≤ n →
      sqVelocity (run releasedCtrl steadyTimes n) <
        releasedCtrl.options.velocityThreshold ^ 2 ∧
      (run releasedCtrl steadyTimes (n + 1)).translationX =
        (run releasedCtrl steadyTimes n).translationX ∧
      (run releasedCtrl steadyTimes (n + 1)).translationY =
        (run releasedCtrl steadyTimes n).translationY ∧
      (run releasedCtrl steadyTimes n).translationX =
        (run releasedCtrl steadyTimes N).translationX ∧
      (run releasedCtrl steadyTimes n).translationY =
        (run releasedCtrl steadyTimes N).translationY) :=
  ⟨rfl, rfl, rfl, ⟨by norm_num [releasedCtrl, rOpts, CanvasControl.create],
      by norm_num [releasedCtrl, rOpts, CanvasControl.create]⟩,
    ⟨by norm_num [releasedCtrl, rOpts, CanvasControl.create],
      by norm_num [releasedCtrl, rOpts, CanvasControl.create]⟩,
    ⟨by norm_num,
      by norm_num [releasedCtrl, CanvasControl.create, steadyTimes],
      by intro n; rw [steadyTimes, steadyTimes]; push_cast; linarith⟩,
    momentum_decay_terminates releasedCtrl steadyTimes 25 rfl rfl rfl
      (by norm_num [releasedCtrl, rOpts, CanvasControl.create])
      (by norm_num [releasedCtrl, rOpts, CanvasControl.create])
      (by norm_num [releasedCtrl, rOpts, CanvasControl.create])
      (by norm_num [releasedCtrl, rOpts, CanvasControl.create])
      (by norm_num)
      (by norm_num [releasedCtrl, CanvasControl.create, steadyTimes])
      (by intro n; rw [steadyTimes, steadyTimes]; push_cast; linarith)⟩

/-- Options with `decayFactor` 1/2 (still below 1), otherwise the source
defaults, over `ℝ`. -/
noncomputable def cexOpts : ControlOptions ℝ :=
  { rOpts with decayFactor := 1 / 2 }

/-- Released controller with momentum deltas (10, 10) under `cexOpts`. -/
noncomputable def momentumCexState : CanvasControl ℝ :=
  { CanvasControl.create 800 600 cexOpts 0 with deltaPanX := 10, deltaPanY := 10 }

/-- Frame schedule with strictly positive but geometrically shrinking
gaps: `cexTimes n = 25 * (1 - (1/2)^(n+1))`, so the total elapsed time
stays below one `decayDuration`. -/
noncomputable def cexTimes (n : ℕ) : ℝ := 25 * (1 - (1 / 2 : ℝ) ^ (n + 1))

theorem momentumCex_invariant (n : ℕ) :
    (run momentumCexState cexTimes n).deltaPanX =
      10 * (1 / 2 : ℝ) ^ ((1 : ℝ) - (1 / 2 : ℝ) ^ n) ∧
    (run momentumCexState cexTimes n).deltaPanY =
      10 * (1 / 2 : ℝ) ^ ((1 : ℝ) - (1 / 2 : ℝ) ^ n) ∧
    (run momentumCexState cexTimes n).lastTime = 25 * (1 - (1 / 2 : ℝ) ^ n) := by
  induction n with
  | zero =>
      refine ⟨?_, ?_, ?_⟩
      · show (10 : ℝ) = 10 * (1 / 2 : ℝ) ^ ((1 : ℝ) - (1 / 2 : ℝ) ^ 0)
        norm_num [Real.rpow_zero]
      · show (10 : ℝ) = 10 * (1 / 2 : ℝ) ^ ((1 : ℝ) - (1 / 2 : ℝ) ^ 0)
        norm_num [Real.rpow_zero]
      · show (0 : ℝ) = 25 * (1 - (1 / 2 : ℝ) ^ 0)
        norm_num
  | succ n ih =>
      obtain ⟨hdx, hdy, hlt⟩ := ih
      have hsle : (1 : ℝ) - (1 / 2 : ℝ) ^ n ≤ 1 := by
        have : (0 : ℝ) ≤ (1 / 2 : ℝ) ^ n := by positivity
        linarith
      have h5 : (1 / 2 : ℝ) ≤ (1 / 2 : ℝ) ^ ((1 : ℝ) - (1 / 2 : ℝ) ^ n) := by
        have := Real.rpow_le_rpow_of_exponent_ge (x := (1 / 2 : ℝ))
          (by norm_num) (by norm_num) hsle
        rwa [Real.rpow_one] at this
      have hv : ¬ sqVelocity (run momentumCexState cexTimes n) <
          (run momentumCexState cexTimes n).options.velocityThreshold ^ 2 := by
        have hopt : (run momentumCexState cexTimes n).options = cexOpts :=
          run_options momentumCexState cexTimes n
        rw [sqVelocity, hdx, hdy, hopt]
        show ¬ _ < ((1 / 2 : ℝ)) ^ 2
        nlinarith
      have hstep := step_of_active (run momentumCexState cexTimes n) (cexTimes n)
        (by rw [run_panning]; rfl)
        (by rw [show (run momentumCexState cexTimes n).scaleAnimator =
            momentumCexState.scaleAnimator from
            run_scaleAnimator_of_ended momentumCexState cexTimes rfl n]
            exact rfl)
        (by rw [sqVelocity] at hv; exact hv)
      have hopt : (run momentumCexState cexTimes n).options = cexOpts :=
        run_options momentumCexState cexTimes n
      have hElapsedEq : (cexTimes n - (run momentumCexState cexTimes n).lastTime) / 25 =
          (1 / 2 : ℝ) ^ (n + 1) := by
        rw [hlt, cexTimes]
        rw [pow_succ]
        ring
      have hexp : ((1 : ℝ) - (1 / 2 : ℝ) ^ n) + (1 / 2 : ℝ) ^ (n + 1) =
          (1 : ℝ) - (1 / 2 : ℝ) ^ (n + 1) := by
        rw [pow_succ]
        ring
      rw [run_succ, hstep]
      refine ⟨?_, ?_, ?_⟩
      · show (run momentumCexState cexTimes n).deltaPanX *
            (run momentumCexState cexTimes n).options.mathPow
              (run momentumCexState cexTimes n).options.decayFactor
              ((cexTimes n - (run momentumCexState cexTimes n).lastTime) /
                (run momentumCexState cexTimes n).options.decayDuration) =
            10 * (1 / 2 : ℝ) ^ ((1 : ℝ) - (1 / 2 : ℝ) ^ (n + 1))
        rw [hopt]
        show (run momentumCexState cexTimes n).deltaPanX *
            ((1 / 2 : ℝ) ^ ((cexTimes n - (run momentumCexState cexTimes n).lastTime) / 25)) = _
        rw [hdx, hElapsedEq, ← hexp, Real.rpow_add (by norm_num)]
        ring
      · show (run momentumCexState cexTimes n).deltaPanY *
            (run momentumCexState cexTimes n).options.mathPow
              (run momentumCexState cexTimes n).options.decayFactor
              ((cexTimes n - (run momentumCexState cexTimes n).lastTime) /
                (run momentumCexState cexTimes n).options.decayDuration) =
            10 * (1 / 2 : ℝ) ^ ((1 : ℝ) - (1 / 2 : ℝ) ^ (n + 1))
        rw [hopt]
        show (run momentumCexState cexTimes n).deltaPanY *
            ((1 / 2 : ℝ) ^ ((cexTimes n - (run momentumCexState cexTimes n).lastTime) / 25)) = _
        rw [hdy, hElapsedEq, ← hexp, Real.rpow_add (by norm_num)]
        ring
      · show cexTimes n = 25 * (1 - (1 / 2 : ℝ) ^ (n + 1))
        rfl

/-- C6 counterexample: with `decayFactor` 1/2, threshold 0.5, release
velocity (10, 10) and strictly increasing frame times with positive gaps
`cexTimes n = 25 (1 - 2^{-(n+1)})`, the cumulative decay exponent stays
below 1, the deltas stay at least 5, the squared velocity never drops
below the threshold square, and every frame keeps adding nonzero
translation: with merely positive (not bounded-below) frame gaps, decay
never terminates. -/
theorem momentum_decay_cex :
    (∀ n, cexTimes n < cexTimes (n + 1)) ∧
    momentumCexState.lastTime < cexTimes 0 ∧
    momentumCexState.options.decayFactor < 1 ∧
    0 < momentumCexState.options.velocityThreshold ∧
    momentumCexState.panning = false ∧
    (¬ ∃ n, sqVelocity (run momentumCexState cexTimes n) <
        momentumCexState.options.velocityThreshold ^ 2) ∧
    (∀ n, (run momentumCexState cexTimes (n + 1)).translationX ≠
        (run momentumCexState cexTimes n).translationX) := by
  have hbound : ∀ n, (10 : ℝ) * (1 / 2 : ℝ) ^ ((1 : ℝ) - (1 / 2 : ℝ) ^ n) ≥ 5 := by
    intro n
    have hsle : (1 : ℝ) - (1 / 2 : ℝ) ^ n ≤ 1 := by
      have : (0 : ℝ) ≤ (1 / 2 : ℝ) ^ n := by positivity
      linarith
    have h5 : (1 / 2 : ℝ) ≤ (1 / 2 : ℝ) ^ ((1 : ℝ) - (1 / 2 : ℝ) ^ n) := by
      have := Real.rpow_le_rpow_of_exponent_ge (x := (1 / 2 : ℝ))
        (by norm_num) (by norm_num) hsle
      rwa [Real.rpow_one] at this
    linarith
  have hnv : ∀ n, ¬ sqVelocity (run momentumCexState cexTimes n) <
      momentumCexState.options.velocityThreshold ^ 2 := by
    intro n
    obtain ⟨hdx, hdy, _⟩ := momentumCex_invariant n
    rw [sqVelocity, hdx, hdy]
    show ¬ _ < ((1 / 2 : ℝ)) ^ 2
    have := hbound n
    nlinarith
  refine ⟨?_, ?_, ?_, ?_, rfl, ?_, ?_⟩
  · intro n
    rw [cexTimes, cexTimes]
    have := pow_lt_pow_right_of_lt_one₀ (a := (1 / 2 : ℝ)) (by norm_num) (by norm_num)
      (show n + 1 < n + 2 by omega)
    linarith
  · show (0 : ℝ) < cexTimes 0
    rw [cexTimes]
    norm_num
  · show (1 / 2 : ℝ) < 1
    norm_num
  · show (0 : ℝ) < 1 / 2
    norm_num
  · rintro ⟨n, hn⟩
    exact hnv n hn
  · intro n
    obtain ⟨hdx, _, _⟩ := momentumCex_invariant n
    have hstep := step_of_active (run momentumCexState cexTimes n) (cexTimes n)
      (by rw [run_panning]; rfl)
      (by rw [show (run momentumCexState cexTimes n).scaleAnimator =
          momentumCexState.scaleAnimator from
          run_scaleAnimator_of_ended momentumCexState cexTimes rfl n]
          exact rfl)
      (by have := hnv n; rw [sqVelocity] at this
          rw [show (run momentumCexState cexTimes n).options.velocityThreshold =
            momentumCexState.options.velocityThreshold from by
              rw [run_options]]
          exact this)
    rw [run_succ, hstep]
    show (run momentumCexState cexTimes n).translationX +
        (run momentumCexState cexTimes n).deltaPanX ≠
      (run momentumCexState cexTimes n).translationX
    rw [hdx]
    have := hbound n
    intro hcontra
    nlinarith

end SeamCarve
